import Mathlib

/-!
Sturdy: view / workspace synchronisation.

A verification development for the view–workspace binder
(`OpenWorkspaceOnView`) and the create-view HTTP handler
(`api/pkg/view/routes/create.go`).

* `Sturdy.Binder`: the binder state machine.  The package `view/open` is not
  among the sources at hand (only its caller `routes.Create` and its end to end
  test `TestUpdateViewWorkspace` are), so the binder is modelled from the
  specification, section 4.3 and 4.4.
* `Sturdy.Routes`: the handler `Create`, translated from the source.
* `Sturdy.InMemory`: the in-memory change repository.
* `Sturdy.ActivityService`: `Service.MarkAsRead`.
* `Sturdy.OrganizationGraphql`: the resolvers `Organization`, `Organizations`
  and `ShortID`.
-/

namespace Sturdy

/-! ## Working trees -/

abbrev Path := String
abbrev Content := String
abbrev WorkspaceID := String

/-- A working tree: the files of a view's directory with their contents. -/
abbrev Tree := List (Path × Content)

/-- Content of the file at `p`, like `ioutil.ReadFile`; `none` when there is no such file. -/
def readFile (t : Tree) (p : Path) : Option Content :=
  match t with
  | [] => none
  | (q, c) :: rest => if q = p then some c else readFile rest p

/-- Create or overwrite the file at `p`, like `ioutil.WriteFile`. -/
def writeFile (t : Tree) (p : Path) (c : Content) : Tree :=
  match t with
  | [] => [(p, c)]
  | (q, d) :: rest => if q = p then (p, c) :: rest else (q, d) :: writeFile rest p c

/-- Delete the file at `p` if there is one. -/
def removeFile (t : Tree) (p : Path) : Tree :=
  match t with
  | [] => []
  | (q, d) :: rest => if q = p then removeFile rest p else (q, d) :: removeFile rest p

namespace Binder

/-! ## The binder, modelled from the specification -/

/-- A version-control commit object: an identifier and the tree it records. -/
structure Commit where
  id : Nat
  tree : Tree
deriving DecidableEq, Repr

/-- Names of references inside a view's repository: the visible branch of a
workspace, and the hidden workspace-scoped reference that holds its snapshots. -/
inductive RefName where
  | branch (w : WorkspaceID)
  | hidden (w : WorkspaceID)
deriving DecidableEq, Repr

/-- Snapshot record (spec 3): identifier, workspace, producing view and the
version-control object it was stored as. -/
structure Snapshot where
  id : Nat
  workspaceID : WorkspaceID
  viewID : String
  commit : Commit
deriving DecidableEq, Repr

/-- View record as the binder sees it: `currentWorkspace = none` is the state
`Unbound`, `some w` is `BoundTo w` (spec 4.4). -/
structure ViewRecord where
  id : String
  codebaseID : String
  currentWorkspace : Option WorkspaceID
deriving DecidableEq, Repr

/-- Primitive operations and notifications performed by the binder, in order. -/
inductive Event where
  | captured (w : WorkspaceID) (snapshotID : Nat)
  | checkedOut (w : WorkspaceID)
  | restored (snapshotID : Nat)
  | bound (w : WorkspaceID)
  | notified (w : WorkspaceID)
deriving DecidableEq, Repr

/-- Error kinds of spec 7 that the binder's primitives can raise. -/
inductive Err where
  | versionControlFailure
deriving DecidableEq, Repr

/-- Which version-control primitive of one call fails (spec 7,
`VersionControlFailure`), and whether the notification can be delivered. -/
structure Faults where
  capture : Bool
  checkout : Bool
  restore : Bool
  notifyUndelivered : Bool
deriving DecidableEq, Repr

/-- No primitive fails. -/
def noFaults : Faults := ⟨false, false, false, false⟩

/-- One view together with its private working-copy repository and the
snapshot store. `snapshots` is ordered newest first. -/
structure State where
  workTree : Tree
  view : ViewRecord
  refs : RefName → List Commit
  snapshots : List Snapshot
  events : List Event

/-- Log of a workspace's visible branch, newest first (`LogBranch` in the test). -/
def logBranch (s : State) (w : WorkspaceID) : List Commit :=
  s.refs (RefName.branch w)

/-- Tree at the tip of the workspace's branch (the empty tree for an empty log). -/
def tipTree (s : State) (w : WorkspaceID) : Tree :=
  match logBranch s w with
  | [] => []
  | c :: _ => c.tree

/-- Modelled from the spec: `latestFor(workspace)` of the Snapshot Engine (4.3),
the most recently created snapshot of the workspace, if any. -/
def latestFor (s : State) (w : WorkspaceID) : Option Snapshot :=
  s.snapshots.find? (fun sn => decide (sn.workspaceID = w))

/-- Modelled from the spec: `capture(view, workspace)` of the Snapshot Engine
(4.3). Commits the whole working tree onto the hidden reference of the
workspace and records a snapshot row; the visible branch is not written. -/
def capture (f : Faults) (s : State) (w : WorkspaceID) : Except Err State :=
  if f.capture then Except.error Err.versionControlFailure
  else
    let c : Commit := ⟨s.snapshots.length, s.workTree⟩
    let sn : Snapshot := ⟨s.snapshots.length, w, s.view.id, c⟩
    Except.ok { s with
      refs := fun r => if r = RefName.hidden w then c :: s.refs r else s.refs r
      snapshots := sn :: s.snapshots
      events := s.events ++ [Event.captured w sn.id] }

/-- Modelled from the spec: step (b) of 4.4, check out the branch of `w`.
Section 9 of the spec takes the checkout to happen on a freshly captured tree,
so the only failure is a failure of the primitive itself. -/
def checkout (f : Faults) (s : State) (w : WorkspaceID) : Except Err State :=
  if f.checkout then Except.error Err.versionControlFailure
  else Except.ok { s with
    workTree := tipTree s w
    events := s.events ++ [Event.checkedOut w] }

/-- Modelled from the spec: `restore(view, snapshot)` of the Snapshot Engine
(4.3): the working tree becomes exactly the snapshot's content. -/
def restore (f : Faults) (s : State) (sn : Snapshot) : Except Err State :=
  if f.restore then Except.error Err.versionControlFailure
  else Except.ok { s with
    workTree := sn.commit.tree
    events := s.events ++ [Event.restored sn.id] }

/-- Result of one call: the error, if any, and the state the call leaves. -/
structure Result where
  err : Option Err
  state : State

/-- Modelled from the spec: the operation `OpenWorkspaceOnView` of package
`view/open`, whose source is missing; this follows the state machine of spec
4.4, steps 1, 2 (a) to (e) and its failure semantics. -/
def openWorkspaceOnView (f : Faults) (s : State) (w : WorkspaceID) : Result :=
  if s.view.currentWorkspace = some w then
    -- 1. no-op fast path
    ⟨none, s⟩
  else
    -- (a) capture the outgoing workspace, skipped when the view is unbound
    let captured : Except Err State :=
      match s.view.currentWorkspace with
      | none => Except.ok s
      | some cur => capture f s cur
    match captured with
    | Except.error e => ⟨some e, s⟩
    | Except.ok s1 =>
      -- (b) checkout of the branch of `w`
      match checkout f s1 w with
      | Except.error e => ⟨some e, s1⟩
      | Except.ok s2 =>
        -- (c) restore the latest snapshot of `w`, if any
        let restored : Except Err State :=
          match latestFor s2 w with
          | none => Except.ok s2
          | some sn => restore f s2 sn
        match restored with
        | Except.error e => ⟨some e, s2⟩
        | Except.ok s3 =>
          -- (d) persist the binding, (e) notify, fire and forget
          ⟨none, { s3 with
            view := { s3.view with currentWorkspace := some w }
            events := s3.events ++
              (if f.notifyUndelivered then [Event.bound w]
               else [Event.bound w, Event.notified w]) }⟩

/-- An edit of the working tree made by the user between two calls. -/
inductive Edit where
  | write (p : Path) (c : Content)
  | remove (p : Path)
deriving DecidableEq, Repr

/-- The file an edit touches. -/
def Edit.path : Edit → Path
  | Edit.write p _ => p
  | Edit.remove p => p

/-- Apply an edit to a tree. -/
def Edit.apply : Edit → Tree → Tree
  | Edit.write p c, t => writeFile t p c
  | Edit.remove p, t => removeFile t p

/-- What happens to a view over time: the user edits files, or workspace `w`
is opened on the view (with the given primitive failures). -/
inductive Op where
  | edit (e : Edit)
  | openWs (w : WorkspaceID) (f : Faults)
deriving DecidableEq, Repr

/-- One step. An edit writes to the working tree outside the binder. -/
def step (s : State) : Op → Result
  | Op.edit e => ⟨none, { s with workTree := e.apply s.workTree }⟩
  | Op.openWs w f => openWorkspaceOnView f s w

/-- Run a sequence of steps; like the test, it carries on after a failed call. -/
def run (s : State) : List Op → State
  | [] => s
  | op :: rest => run (step s op).state rest

/-- Every call of the sequence returned a nil error (`assert.NoError`). -/
def allSucceed (s : State) : List Op → Bool
  | [] => true
  | op :: rest => (step s op).err.isNone && allSucceed (step s op).state rest

/-- No edit of the sequence is made while workspace `a` is open; `cur` is the
workspace open at the start. -/
def editsAvoid (a : WorkspaceID) (cur : Option WorkspaceID) : List Op → Bool
  | [] => true
  | Op.edit _ :: rest => decide (cur ≠ some a) && editsAvoid a cur rest
  | Op.openWs w _ :: rest => editsAvoid a (some w) rest

/-- File `p` is only ever written, never removed, and only while workspace `b`
is open; `cur` is the workspace open at the start. -/
def touchedOnlyOn (b : WorkspaceID) (p : Path) (cur : Option WorkspaceID) : List Op → Bool
  | [] => true
  | Op.edit (Edit.write q _) :: rest =>
      (decide (q ≠ p) || decide (cur = some b)) && touchedOnlyOn b p cur rest
  | Op.edit (Edit.remove q) :: rest => decide (q ≠ p) && touchedOnlyOn b p cur rest
  | Op.openWs w _ :: rest => touchedOnlyOn b p (some w) rest

/-- The content a workspace currently has for the view: the working tree when
it is the open workspace, else its latest snapshot, else its branch tip
(spec 3, "latest Snapshot (if any) layered onto its branch tip"). -/
def contentOf (s : State) (w : WorkspaceID) : Tree :=
  if s.view.currentWorkspace = some w then s.workTree
  else match latestFor s w with
    | some sn => sn.commit.tree
    | none => tipTree s w

/-! ### The scenario of `TestUpdateViewWorkspace` -/

/-- The commit "Commit 1 (in A)" on `sturdytrunk`. -/
def trunkCommit : Commit := ⟨0, [("a.txt", "hello world\n")]⟩

/-- State before the loop of the test: the view record is bound to `A`, both
branches were created on the trunk commit, nothing was captured yet. -/
def testStart : State where
  workTree := [("a.txt", "hello world\n")]
  view := ⟨"view", "codebase", some "A"⟩
  refs := fun r =>
    match r with
    | RefName.branch _ => [trunkCommit]
    | RefName.hidden _ => []
  snapshots := []
  events := []

/-- The call of step `w` of the test, no primitive failing. -/
def openStep (w : WorkspaceID) : Op := Op.openWs w noFaults

/-- The steps of the test case "navigate-between-two-workspaces": each opens a
workspace and then writes what the step says. -/
def testOps : List Op :=
  [openStep "A", Op.edit (Edit.write "a.txt" "AA"),
   openStep "B", Op.edit (Edit.write "a.txt" "BB"),
   openStep "A", Op.edit (Edit.write "a.txt" "AAaa"),
   openStep "B", Op.edit (Edit.write "a.txt" "BBbb"),
   openStep "A", openStep "B", openStep "A",
   openStep "B", Op.edit (Edit.write "newfile.txt" "stuff"),
   openStep "A", openStep "B"]

end Binder

namespace Routes

/-! ## The create-view handler (`api/pkg/view/routes/create.go`) -/

/-- The struct `CreateRequest` of create.go. -/
structure CreateRequest where
  CodebaseID : String
  WorkspaceID : String
  Name : String
  MountPath : String
  MountHostname : String
deriving DecidableEq, Repr

/-- A request body as the JSON decoder sees it: either it cannot be decoded
into `CreateRequest`, or for each of the five keys it holds a string or nothing
(key missing). -/
inductive Body where
  | malformed
  | object (codebase_id workspace_id name mount_path mount_hostname : Option String)
deriving DecidableEq, Repr

/-- The call `c.ShouldBindJSON(&req)`: decode, then validate the `binding:"required"`
tags. A missing key leaves the Go zero value `""`, and `required` rejects the
zero value, so a required field passes only when present and non-empty. -/
def ShouldBindJSON : Body → Except String CreateRequest
  | Body.malformed => Except.error "invalid request body"
  | Body.object cb ws n mp mh =>
    let req : CreateRequest := ⟨cb.getD "", ws.getD "", n.getD "", mp.getD "", mh.getD ""⟩
    if req.CodebaseID = "" then Except.error "CodebaseID is required"
    else if req.WorkspaceID = "" then Except.error "WorkspaceID is required"
    else Except.ok req

/-- The struct `view.View`, the fields the handler sets. The pointer fields are `some` of
the pointee. -/
structure View where
  ID : String
  UserID : String
  CodebaseID : String
  WorkspaceID : String
  Name : Option String
  MountPath : Option String
  MountHostname : Option String
  CreatedAt : Option Nat
deriving DecidableEq, Repr

/-- The struct `workspace.Workspace`, the fields set in this repository's sources. -/
structure Workspace where
  ID : String
  CodebaseID : String
  UserID : String
deriving DecidableEq, Repr

/-- A unit of work handed to the executor. -/
inductive Work where
  | vcsCreate (codebaseID workspaceID viewID : String)
deriving DecidableEq, Repr

/-- The executor under construction: `executorProvider.New()` and what
`AllowRebasingState()` and `Schedule(..)` record on it. -/
structure Executor where
  allowRebasingState : Bool
  scheduled : List Work
deriving DecidableEq, Repr

/-- The call `executorProvider.New()`. -/
def Executor.New : Executor := ⟨false, []⟩

/-- The call `.AllowRebasingState()`. -/
def Executor.AllowRebasingState (ex : Executor) : Executor :=
  { ex with allowRebasingState := true }

/-- The call `.Schedule(fn)`. -/
def Executor.Schedule (ex : Executor) (w : Work) : Executor :=
  { ex with scheduled := ex.scheduled ++ [w] }

/-- The struct `analytics.Capture`. -/
structure Capture where
  DistinctId : String
  Event : String
  Properties : List (String × Option String)
deriving DecidableEq, Repr

/-- Body of an HTTP response. -/
inductive ResponseBody where
  | empty
  | error (msg : String)
  | view (v : View)
deriving DecidableEq, Repr

/-- HTTP response written to the gin context. -/
structure Response where
  status : Nat
  body : ResponseBody
deriving DecidableEq, Repr

/-- Calls the handler makes on its collaborators, in order. -/
inductive Event where
  | logWarn (msg : String)
  | logError (msg : String)
  | authUserID
  | userHasAccessToCodebase (userID codebaseID : String)
  | viewRepoCreate (v : View)
  | execView (ex : Executor) (codebaseID viewID actionName : String)
  | workspaceGet (workspaceID : String)
  | openWorkspaceOnView (v : View) (ws : Workspace)
  | analyticsEnqueue (c : Capture)
deriving DecidableEq, Repr

/-- The calls with an effect outside the handler that the authorization has to
precede: record creation, executor scheduling, workspace read, the binder and
analytics. -/
def Event.isGuarded : Event → Bool
  | Event.viewRepoCreate _ => true
  | Event.execView _ _ _ _ => true
  | Event.workspaceGet _ => true
  | Event.openWorkspaceOnView _ _ => true
  | Event.analyticsEnqueue _ => true
  | _ => false

/-- Is the event a call of `ExecView`. -/
def Event.isExecView : Event → Bool
  | Event.execView _ _ _ _ => true
  | _ => false

/-- The steps of the handler, in the order of the source. -/
inductive Step where
  | auth | access | viewRepoCreate | execView | workspaceGet | openWorkspaceOnView
  | analyticsEnqueue
deriving DecidableEq, Repr

/-- The step an event belongs to; logging is no step. -/
def Event.step : Event → Option Step
  | Event.logWarn _ => none
  | Event.logError _ => none
  | Event.authUserID => some Step.auth
  | Event.userHasAccessToCodebase _ _ => some Step.access
  | Event.viewRepoCreate _ => some Step.viewRepoCreate
  | Event.execView _ _ _ _ => some Step.execView
  | Event.workspaceGet _ => some Step.workspaceGet
  | Event.openWorkspaceOnView _ _ => some Step.openWorkspaceOnView
  | Event.analyticsEnqueue _ => some Step.analyticsEnqueue

/-- The steps executed, in order. -/
def stepsOf (trace : List Event) : List Step :=
  trace.filterMap Event.step

/-- The collaborators of the handler and the values it draws from outside.
Each function gives the outcome of the call with these arguments. -/
structure Env where
  /-- Result of `auth.UserID(ctx)`; `none` is an error. -/
  authUserID : Option String
  /-- Result of `access.UserHasAccessToCodebase(codebaseUserRepo, userID, codebaseID)`. -/
  userHasAccessToCodebase : String → String → Bool
  /-- Value of `uuid.New().String()`. -/
  newUUID : String
  /-- Value of `time.Now()`. -/
  now : Nat
  /-- Does `viewRepo.Create(e)` return an error. -/
  viewRepoCreateErr : View → Bool
  /-- Does `ExecView` return an error (the error of the scheduled work, which
  the executor propagates). -/
  execViewErr : Executor → String → String → String → Bool
  /-- Result of `workspaceReader.Get(id)`; `none` is an error. -/
  workspaceGet : String → Option Workspace
  /-- Result of `open.OpenWorkspaceOnView(logger, &e, ws, ..)`: `none` is an error, `some v`
  is a nil error with `v` the view the pointer `&e` is left with. -/
  openWorkspaceOnView : View → Workspace → Option View
  /-- Does `analyticsClient.Enqueue` return an error. -/
  analyticsEnqueueErr : Capture → Bool

/-- The view store behind `viewRepo`: the records created so far. -/
abbrev ViewStore := List View

/-- Modelled from the spec: `viewRepo.Create` of `view/db`, whose source is
missing, as the `create` of a keyed durable store (spec 6): a successful call
adds the record, a failed one leaves the store as it was. -/
def viewRepoCreate (env : Env) (store : ViewStore) (e : View) : Except String ViewStore :=
  if env.viewRepoCreateErr e then Except.error "create failed"
  else Except.ok (store ++ [e])

/-- What one run of the handler leaves: the response, the view store and the
calls made. -/
structure Outcome where
  response : Response
  store : ViewStore
  trace : List Event

/-- The `view.View` literal of create.go lines 67 to 76. -/
def newView (env : Env) (userID : String) (req : CreateRequest) : View :=
  { ID := env.newUUID
    UserID := userID
    CodebaseID := req.CodebaseID
    WorkspaceID := req.WorkspaceID
    Name := some req.Name
    MountPath := some req.MountPath
    MountHostname := some req.MountHostname
    CreatedAt := some env.now }

/-- The executor call of create.go lines 84 to 88, up to `ExecView`. -/
def createExecutor (req : CreateRequest) (e : View) : Executor :=
  (Executor.New.AllowRebasingState).Schedule
    (Work.vcsCreate req.CodebaseID req.WorkspaceID e.ID)

/-- The `analytics.Capture` of create.go lines 108 to 117; `e` is the view
after `OpenWorkspaceOnView`. -/
def createCapture (userID : String) (req : CreateRequest) (e : View) : Capture :=
  { DistinctId := userID
    Event := "create view"
    Properties :=
      [("codebase_id", some req.CodebaseID), ("workspace_id", some req.WorkspaceID),
       ("view_id", some e.ID), ("mount_path", e.MountPath),
       ("mount_hostname", e.MountHostname)] }

/-- The handler returned by `Create` of create.go, run on one request. -/
def Create (env : Env) (store : ViewStore) (body : Body) : Outcome :=
  match ShouldBindJSON body with
  | Except.error _ =>
    ⟨⟨400, ResponseBody.error "failed to parse or validate input"⟩, store,
      [Event.logWarn "failed to parse input"]⟩
  | Except.ok req =>
    match env.authUserID with
    | none => ⟨⟨401, ResponseBody.empty⟩, store, [Event.authUserID]⟩
    | some userID =>
      let t0 := [Event.authUserID, Event.userHasAccessToCodebase userID req.CodebaseID]
      if !env.userHasAccessToCodebase userID req.CodebaseID then
        ⟨⟨401, ResponseBody.empty⟩, store, t0⟩
      else
        let e := newView env userID req
        let t1 := t0 ++ [Event.viewRepoCreate e]
        match viewRepoCreate env store e with
        | Except.error _ =>
          ⟨⟨400, ResponseBody.error "failed to create view"⟩, store,
            t1 ++ [Event.logError "failed to create view"]⟩
        | Except.ok store1 =>
          let ex := createExecutor req e
          let t2 := t1 ++ [Event.execView ex req.CodebaseID e.ID "createView"]
          if env.execViewErr ex req.CodebaseID e.ID "createView" then
            ⟨⟨400, ResponseBody.error "failed to create view"⟩, store1,
              t2 ++ [Event.logError "failed to create view"]⟩
          else
            let t3 := t2 ++ [Event.workspaceGet req.WorkspaceID]
            match env.workspaceGet req.WorkspaceID with
            | none =>
              ⟨⟨500, ResponseBody.empty⟩, store1,
                t3 ++ [Event.logError "failed to get workspace"]⟩
            | some ws =>
              let t4 := t3 ++ [Event.openWorkspaceOnView e ws]
              match env.openWorkspaceOnView e ws with
              | none =>
                ⟨⟨500, ResponseBody.empty⟩, store1,
                  t4 ++ [Event.logError "failed to open workspace on view"]⟩
              | some e1 =>
                let cap := createCapture userID req e1
                let t5 := t4 ++ [Event.analyticsEnqueue cap]
                if env.analyticsEnqueueErr cap then
                  ⟨⟨200, ResponseBody.view e1⟩, store1,
                    t5 ++ [Event.logError "analytics failed"]⟩
                else
                  ⟨⟨200, ResponseBody.view e1⟩, store1, t5⟩

/-- A run in which every collaborator succeeds. -/
def sampleEnv : Env where
  authUserID := some "user"
  userHasAccessToCodebase := fun _ _ => true
  newUUID := "view-1"
  now := 0
  viewRepoCreateErr := fun _ => false
  execViewErr := fun _ _ _ _ => false
  workspaceGet := fun id => some ⟨id, "codebase", "user"⟩
  openWorkspaceOnView := fun v _ => some v
  analyticsEnqueueErr := fun _ => false

/-- The collaborators of `sampleEnv`, except that the scheduled `vcs.Create`
fails. -/
def failingExecEnv : Env :=
  { sampleEnv with execViewErr := fun _ _ _ _ => true }

/-- The collaborators of `sampleEnv` for a caller without access to any codebase. -/
def noAccessEnv : Env :=
  { sampleEnv with userHasAccessToCodebase := fun _ _ => false }

/-- A request body with the two required keys only. -/
def sampleBody : Body :=
  Body.object (some "codebase") (some "workspace") none none none

/-- The request `sampleBody` decodes to. -/
def sampleRequest : CreateRequest := ⟨"codebase", "workspace", "", "", ""⟩

end Routes

namespace InMemory

/-! ## The in-memory change repository
(`api/pkg/internal/inmemory/inmemory_change_repository.go`) -/

/-- The struct `changes.Change`. Its declaration is not among the sources; the
repository reads the fields `ID`, `CodebaseID` and the pointer `CommitID`
(`none` is the nil pointer), and `Rest` stands for all other fields. -/
structure Change where
  ID : String
  CodebaseID : String
  CommitID : Option String
  Rest : String
deriving DecidableEq, Repr

/-- Errors returned by the repository. -/
inductive Err where
  | ErrNoRows
deriving DecidableEq, Repr

/-- The struct `inMemoryChangeRepo`: the Go map `changes`, a key without an
entry giving `none`. -/
structure inMemoryChangeRepo where
  changes : String → Option Change

/-- The constructor `NewInMemoryChangeRepo`: the empty map. -/
def NewInMemoryChangeRepo : inMemoryChangeRepo := ⟨fun _ => none⟩

/-- The method `Get`: the pair of the returned pointer and the error. -/
def Get (r : inMemoryChangeRepo) (id : String) : Option Change × Option Err :=
  match r.changes id with
  | some c => (some c, none)
  | none => (none, some Err.ErrNoRows)

/-- The method `Insert`: `r.changes[ch.ID] = ch`, returning the nil error. -/
def Insert (r : inMemoryChangeRepo) (ch : Change) : inMemoryChangeRepo × Option Err :=
  (⟨fun id => if id = ch.ID then some ch else r.changes id⟩, none)

/-- The method `Update`: `r.changes[ch.ID] = ch`, returning the nil error. -/
def Update (r : inMemoryChangeRepo) (ch : Change) : inMemoryChangeRepo × Option Err :=
  (⟨fun id => if id = ch.ID then some ch else r.changes id⟩, none)

/-- A call that either returns a value or panics at run time. -/
inductive Outcome (α : Type) where
  | returned (a : α)
  | panicked
deriving DecidableEq, Repr

/-- The condition of the `if` in `GetByCommitID`,
`c.CodebaseID == codebaseID && c.CommitID == nil && *c.CommitID == commitID`,
evaluated left to right with short circuit; dereferencing the nil pointer
panics. -/
def commitMatches (c : Change) (commitID codebaseID : String) : Outcome Bool :=
  if c.CodebaseID = codebaseID then
    if c.CommitID = none then
      match c.CommitID with
      | none => Outcome.panicked
      | some v => Outcome.returned (decide (v = commitID))
    else Outcome.returned false
  else Outcome.returned false

/-- The method `GetByCommitID`. Go visits the entries of a map in an order it
chooses; `order` is that order, as a list of keys. -/
def GetByCommitID (r : inMemoryChangeRepo) (order : List String) (commitID codebaseID : String) :
    Outcome (Option Change × Option Err) :=
  match order with
  | [] => Outcome.returned (none, some Err.ErrNoRows)
  | id :: rest =>
    match r.changes id with
    | none => GetByCommitID r rest commitID codebaseID
    | some c =>
      match commitMatches c commitID codebaseID with
      | Outcome.panicked => Outcome.panicked
      | Outcome.returned true => Outcome.returned (some c, none)
      | Outcome.returned false => GetByCommitID r rest commitID codebaseID

/-- A call that writes to the repository. -/
inductive Write where
  | insert (ch : Change)
  | update (ch : Change)
deriving DecidableEq, Repr

/-- The change a write carries. -/
def Write.change : Write → Change
  | Write.insert ch => ch
  | Write.update ch => ch

/-- Perform one write. -/
def applyWrite (r : inMemoryChangeRepo) : Write → inMemoryChangeRepo
  | Write.insert ch => (Insert r ch).1
  | Write.update ch => (Update r ch).1

/-- Perform a sequence of writes, first to last. -/
def applyWrites (r : inMemoryChangeRepo) : List Write → inMemoryChangeRepo
  | [] => r
  | w :: rest => applyWrites (applyWrite r w) rest

/-- The change of the last write of the sequence made under the ID `i`, if any. -/
def lastWritten (i : String) : List Write → Option Change
  | [] => none
  | w :: rest =>
    match lastWritten i rest with
    | some c => some c
    | none => if w.change.ID = i then some w.change else none

/-- A change without a commit. -/
def changeNoCommit : Change := ⟨"change-1", "codebase", none, "first"⟩

/-- A change with the commit `abc`. -/
def changeWithCommit : Change := ⟨"change-2", "codebase", some "abc", "second"⟩

/-- A second version of `changeWithCommit`, with the same ID. -/
def changeRewritten : Change := ⟨"change-2", "codebase", some "def", "rewritten"⟩

end InMemory

namespace ActivityService

/-! ## The activity service (`api/pkg/activity/service/service.go`) -/

/-- The struct `activity.Activity`, the fields `MarkAsRead` reads. A `time.Time`
is the instant it denotes, as a number. -/
structure Activity where
  ID : String
  WorkspaceID : String
  CreatedAt : Int
deriving DecidableEq, Repr

/-- The struct `activity.ActivityReads`. -/
structure ActivityReads where
  ID : String
  UserID : String
  WorkspaceID : String
  LastReadCreatedAt : Int
deriving DecidableEq, Repr

/-- Errors of the reads repository and of the service. -/
inductive Err where
  | ErrNoRows
  | storeFailure
  | failedToGetLastRead (inner : Err)
deriving DecidableEq, Repr

/-- The event types; `MarkAsRead` sends `events.WorkspaceUpdatedActivity`. -/
inductive EventType where
  | WorkspaceUpdatedActivity
deriving DecidableEq, Repr

/-- Calls `MarkAsRead` makes on the reads repository and the events sender. -/
inductive Call where
  | getByUserAndWorkspace (userID workspaceID : String)
  | create (r : ActivityReads)
  | update (r : ActivityReads)
  | eventsUser (userID : String) (et : EventType) (reference : String)
deriving DecidableEq, Repr

/-- Is the call an `Update` of the reads repository. -/
def Call.isUpdate : Call → Bool
  | Call.update _ => true
  | _ => false

/-- Is the call a `Create` of the reads repository. -/
def Call.isCreate : Call → Bool
  | Call.create _ => true
  | _ => false

/-- Is the call a send of an event. -/
def Call.isEvent : Call → Bool
  | Call.eventsUser _ _ _ => true
  | _ => false

/-- The reads store: the rows of the table. -/
abbrev ReadsStore := List ActivityReads

/-- Which calls on the reads repository fail, with an error other than
`sql.ErrNoRows`. -/
structure Faults where
  get : Bool
  create : Bool
  update : Bool
deriving DecidableEq, Repr

/-- The row stored for a user and a workspace, if any. -/
def lookup (store : ReadsStore) (userID workspaceID : String) : Option ActivityReads :=
  store.find? (fun r => decide (r.UserID = userID) && decide (r.WorkspaceID = workspaceID))

/-- Modelled from the spec: `GetByUserAndWorkspace` of the reads repository
(package `activity/db`, whose source is missing), the `get` of a keyed store
(spec 6): the row, or `sql.ErrNoRows` when there is none. -/
def GetByUserAndWorkspace (f : Faults) (store : ReadsStore) (userID workspaceID : String) :
    Except Err ActivityReads :=
  if f.get then Except.error Err.storeFailure
  else match lookup store userID workspaceID with
    | some r => Except.ok r
    | none => Except.error Err.ErrNoRows

/-- Modelled from the spec: `Create` of the reads repository, the `create` of
a keyed store (spec 6): a successful call adds the row. -/
def repoCreate (f : Faults) (store : ReadsStore) (r : ActivityReads) : Except Err ReadsStore :=
  if f.create then Except.error Err.storeFailure
  else Except.ok (store ++ [r])

/-- Modelled from the spec: `Update` of the reads repository, the `update` of
a store keyed by identifier (spec 6): a successful call replaces the rows with
the identifier of `r` by `r`. -/
def repoUpdate (f : Faults) (store : ReadsStore) (r : ActivityReads) : Except Err ReadsStore :=
  if f.update then Except.error Err.storeFailure
  else Except.ok (store.map (fun x => if x.ID = r.ID then r else x))

/-- What a call of `MarkAsRead` leaves: the returned error, the store, and the
calls made in order. -/
structure Result where
  err : Option Err
  store : ReadsStore
  calls : List Call

/-- The second half of `MarkAsRead`, from the comment `// Update` on:
`lastRead` is the row read or just created, `calls` the calls made so far. -/
def markAsReadUpdate (f : Faults) (store : ReadsStore) (userID : String) (act : Activity)
    (lastRead : ActivityReads) (calls : List Call) : Result :=
  if lastRead.LastReadCreatedAt < act.CreatedAt then
    let lastRead1 := { lastRead with LastReadCreatedAt := act.CreatedAt }
    match repoUpdate f store lastRead1 with
    | Except.error e => ⟨some e, store, calls ++ [Call.update lastRead1]⟩
    | Except.ok store1 =>
      ⟨none, store1, calls ++ [Call.update lastRead1,
        Call.eventsUser userID EventType.WorkspaceUpdatedActivity act.ID]⟩
  else
    ⟨none, store, calls ++ [Call.eventsUser userID EventType.WorkspaceUpdatedActivity act.ID]⟩

/-- The method `Service.MarkAsRead`; `newID` is the value of `uuid.NewString()`. -/
def MarkAsRead (f : Faults) (newID : String) (store : ReadsStore) (userID : String)
    (act : Activity) : Result :=
  let c0 := [Call.getByUserAndWorkspace userID act.WorkspaceID]
  match GetByUserAndWorkspace f store userID act.WorkspaceID with
  | Except.ok lastRead => markAsReadUpdate f store userID act lastRead c0
  | Except.error Err.ErrNoRows =>
    let lastRead : ActivityReads := ⟨newID, userID, act.WorkspaceID, act.CreatedAt⟩
    -- create new
    match repoCreate f store lastRead with
    | Except.error e => ⟨some e, store, c0 ++ [Call.create lastRead]⟩
    | Except.ok store1 =>
      markAsReadUpdate f store1 userID act lastRead (c0 ++ [Call.create lastRead])
  | Except.error e => ⟨some (Err.failedToGetLastRead e), store, c0⟩

/-- No call on the reads repository fails. -/
def noFaults : Faults := ⟨false, false, false⟩

/-- A store with one row, of user `u` and workspace `w`, read up to instant 10. -/
def sampleStore : ReadsStore := [⟨"r1", "u", "w", 10⟩]

end ActivityService

namespace OrganizationGraphql

/-! ## The organization resolver (`api/pkg/organization/graphql/resolver.go`) -/

/-- The struct `organization.Organization`, the fields the resolver reads. A Go
string is taken as the list of its characters; the separator `-` is one ASCII
byte, so cutting at it is the same on bytes and on characters. -/
structure Organization where
  ID : String
  ShortID : List Char
  Name : List Char
deriving DecidableEq, Repr

/-- The call `strings.LastIndex(s, "-")` for a one-character separator: the
index of its last occurrence, or `-1`. -/
def LastIndex (s : List Char) (sep : Char) : Int :=
  match s with
  | [] => -1
  | c :: rest =>
    let i := LastIndex rest sep
    if 0 ≤ i then i + 1 else if c = sep then 0 else -1

/-- The method `organizationResolver.ShortID`:
`slug.Make(r.org.Name) + "-" + string(r.org.ShortID)`; `slugMake` is the
library function `slug.Make`. -/
def ShortID (slugMake : List Char → List Char) (org : Organization) : List Char :=
  slugMake org.Name ++ ['-'] ++ org.ShortID

/-- The struct `resolvers.OrganizationArgs`: two optional identifiers. -/
structure OrganizationArgs where
  ID : Option String
  ShortID : Option (List Char)
deriving DecidableEq, Repr

/-- Calls the resolver makes on its services. -/
inductive Call where
  | GetByID (id : String)
  | GetByShortID (shortID : List Char)
  | CanRead (org : Option Organization)
  | ListByUserID (userID : String)
  | ListOrgsByUser (userID : String)
deriving DecidableEq, Repr

/-- Is the call a `GetByShortID`. -/
def Call.isGetByShortID : Call → Bool
  | Call.GetByShortID _ => true
  | _ => false

/-- Errors the resolver returns. -/
inductive Err where
  | gqlError (msg : String)
deriving DecidableEq, Repr

/-- Result of `auth.UserID(ctx)`. -/
inductive AuthResult where
  | user (userID : String)
  | unauthenticated
  | failed
deriving DecidableEq, Repr

/-- The services behind the resolver; `none` is a returned error. -/
structure Env where
  /-- Result of `auth.UserID(ctx)`. -/
  authUserID : AuthResult
  /-- Result of `service.GetByID(ctx, id)`. -/
  GetByID : String → Option Organization
  /-- Result of `service.GetByShortID(ctx, shortID)`. -/
  GetByShortID : List Char → Option Organization
  /-- Does `authService.CanRead(ctx, org)` return nil. -/
  CanRead : Option Organization → Bool
  /-- Result of `service.ListByUserID(ctx, userID)`. -/
  ListByUserID : String → Option (List Organization)
  /-- Result of `codebaseService.ListOrgsByUser(ctx, userID)`. -/
  ListOrgsByUser : String → Option (List String)

/-- What a resolver call returns, with the calls made: `value` is the resolver
result (`none` for a returned error). -/
structure Result (α : Type) where
  value : Except Err α
  calls : List Call

/-- The part of `Organization` after the lookup: the `CanRead` check and the
returned resolver, which holds the (possibly nil) organization. -/
def organizationCheck (env : Env) (org : Option Organization) (calls : List Call) :
    Result (Option Organization) :=
  if env.CanRead org then ⟨Except.ok org, calls ++ [Call.CanRead org]⟩
  else ⟨Except.error (Err.gqlError "CanRead"), calls ++ [Call.CanRead org]⟩

/-- The method `organizationRootResolver.Organization`. -/
def OrganizationQuery (env : Env) (args : OrganizationArgs) : Result (Option Organization) :=
  match args.ID with
  | some id =>
    match env.GetByID id with
    | none => ⟨Except.error (Err.gqlError "GetByID"), [Call.GetByID id]⟩
    | some org => organizationCheck env (some org) [Call.GetByID id]
  | none =>
    match args.ShortID with
    | some s0 =>
      let idx := LastIndex s0 '-'
      let s := if 0 ≤ idx then s0.drop (idx + 1).toNat else s0
      match env.GetByShortID s with
      | none => ⟨Except.error (Err.gqlError "GetByShortID"), [Call.GetByShortID s]⟩
      | some org => organizationCheck env (some org) [Call.GetByShortID s]
    | none => organizationCheck env none []

/-- The first loop of `Organizations`, over `explicitMemberships`: every
organization is marked in `loaded` and appended to `res`. -/
def explicitLoop (orgs : List Organization) (loaded : List String) (res : List Organization) :
    List String × List Organization :=
  match orgs with
  | [] => (loaded, res)
  | org :: rest => explicitLoop rest (org.ID :: loaded) (res ++ [org])

/-- The second loop of `Organizations`, over `implicitMemberships`: `loaded` is
the set of the map `loaded`, `res` the slice built so far. -/
def implicitLoop (env : Env) (ids : List String) (loaded : List String)
    (res : List Organization) (calls : List Call) : Result (List Organization) :=
  match ids with
  | [] => ⟨Except.ok res, calls⟩
  | orgID :: rest =>
    if orgID ∈ loaded then implicitLoop env rest loaded res calls
    else
      match env.GetByID orgID with
      | none => ⟨Except.error (Err.gqlError "GetByID"), calls ++ [Call.GetByID orgID]⟩
      | some org =>
        implicitLoop env rest (orgID :: loaded) (res ++ [org]) (calls ++ [Call.GetByID orgID])

/-- The method `organizationRootResolver.Organizations`. The nil slice is the
empty list. -/
def Organizations (env : Env) : Result (List Organization) :=
  match env.authUserID with
  | AuthResult.unauthenticated => ⟨Except.ok [], []⟩
  | AuthResult.failed => ⟨Except.error (Err.gqlError "auth"), []⟩
  | AuthResult.user userID =>
    match env.ListByUserID userID with
    | none => ⟨Except.error (Err.gqlError "ListByUserID"), [Call.ListByUserID userID]⟩
    | some explicitMemberships =>
      let (loaded, res) := explicitLoop explicitMemberships [] []
      match env.ListOrgsByUser userID with
      | none =>
        ⟨Except.error (Err.gqlError "ListOrgsByUser"),
          [Call.ListByUserID userID, Call.ListOrgsByUser userID]⟩
      | some implicitMemberships =>
        implicitLoop env implicitMemberships loaded res
          [Call.ListByUserID userID, Call.ListOrgsByUser userID]

/-- The elements of a list, each once, in the order of their first occurrence. -/
def firstOccurrences : List String → List String
  | [] => []
  | x :: rest => x :: (firstOccurrences rest).filter (fun y => decide (y ≠ x))

/-- An organization. -/
def acme : Organization := ⟨"org-1", "x7k2".toList, "Acme Corp".toList⟩

/-- A second organization. -/
def globex : Organization := ⟨"org-2", "q9".toList, "Globex".toList⟩

/-- A stand-in for `slug.Make` on the sample names. -/
def sampleSlug (name : List Char) : List Char :=
  name.map (fun c => if c = ' ' then '-' else c.toLower)

/-- Services that know `acme` and `globex`; the user is a direct member of
`acme` and reaches `acme` and `globex` through codebases. -/
def sampleEnv : Env where
  authUserID := AuthResult.user "user"
  GetByID := fun id => if id = "org-1" then some acme else if id = "org-2" then some globex else none
  GetByShortID := fun s => if s = acme.ShortID then some acme else none
  CanRead := fun _ => true
  ListByUserID := fun _ => some [acme]
  ListOrgsByUser := fun _ => some ["org-2", "org-1", "org-2"]

end OrganizationGraphql

end Sturdy

/-! # Theorems -/

/-! ## Working trees -/

namespace Sturdy
theorem readFile_writeFile_same (t : Tree) (p : Path) (c : Content) :
    readFile (writeFile t p c) p = some c := by
  induction t with
  | nil => simp [writeFile, readFile]
  | cons hd tl ih =>
    obtain ⟨q, d⟩ := hd
    by_cases h : q = p
    · simp [writeFile, readFile, h]
    · simp [writeFile, readFile, h, ih]

theorem readFile_writeFile_other (t : Tree) (p q : Path) (c : Content) (hq : q ≠ p) :
    readFile (writeFile t q c) p = readFile t p := by
  induction t with
  | nil => simp [writeFile, readFile, hq]
  | cons hd tl ih =>
    obtain ⟨r, d⟩ := hd
    by_cases h : r = q
    · subst h
      simp [writeFile, readFile, hq]
    · by_cases h2 : r = p
      · subst h2
        simp [writeFile, readFile, h]
      · simp [writeFile, readFile, h, h2, ih]

theorem readFile_removeFile_other (t : Tree) (p q : Path) (hq : q ≠ p) :
    readFile (removeFile t q) p = readFile t p := by
  induction t with
  | nil => simp [removeFile, readFile]
  | cons hd tl ih =>
    obtain ⟨r, d⟩ := hd
    by_cases h : r = q
    · subst h
      simp [removeFile, readFile, hq, ih]
    · by_cases h2 : r = p
      · subst h2
        simp [removeFile, readFile, h]
      · simp [removeFile, readFile, h, h2, ih]
end Sturdy

namespace Sturdy.Binder
open Sturdy

theorem capture_ok (s s1 : State) (f : Faults) (cur : WorkspaceID)
    (h : capture f s cur = Except.ok s1) :
    s1.workTree = s.workTree ∧ s1.view = s.view ∧
    (∀ v, s1.refs (RefName.branch v) = s.refs (RefName.branch v)) ∧
    (∀ w, latestFor s1 w =
      if cur = w then some ⟨s.snapshots.length, cur, s.view.id, ⟨s.snapshots.length, s.workTree⟩⟩
      else latestFor s w) := by
  unfold capture at h
  split at h
  · cases h
  · injection h with h
    subst h
    refine ⟨rfl, rfl, fun v => by simp, fun w => ?_⟩
    simp only [latestFor, List.find?_cons]
    by_cases hw : cur = w
    · simp [hw]
    · simp [hw]

/-- The slow path of the binder, step by step. -/
theorem open_slow (f : Faults) (s : State) (w : WorkspaceID)
    (hcur : s.view.currentWorkspace ≠ some w)
    (h : (openWorkspaceOnView f s w).err = none) :
    ∃ s1, (match s.view.currentWorkspace with
            | none => Except.ok s
            | some cur => capture f s cur) = Except.ok s1 ∧
      (openWorkspaceOnView f s w).state.view.currentWorkspace = some w ∧
      (openWorkspaceOnView f s w).state.view.id = s1.view.id ∧
      (openWorkspaceOnView f s w).state.snapshots = s1.snapshots ∧
      (openWorkspaceOnView f s w).state.refs = s1.refs ∧
      (openWorkspaceOnView f s w).state.workTree =
        (match latestFor s1 w with
         | some sn => sn.commit.tree
         | none => tipTree s1 w) := by
  unfold openWorkspaceOnView at h ⊢
  simp only [hcur, if_false] at h ⊢
  generalize (match s.view.currentWorkspace with
            | none => Except.ok s
            | some cur => capture f s cur) = cap at h ⊢
  cases cap with
  | error e => simp at h
  | ok s1 =>
    refine ⟨s1, rfl, ?_⟩
    simp only at h ⊢
    unfold checkout at h ⊢
    cases hk : f.checkout
    · simp only [hk] at h ⊢
      simp only [Bool.false_eq_true, if_false] at h ⊢
      have hl : latestFor { s1 with workTree := tipTree s1 w, events := s1.events ++ [Event.checkedOut w] } w = latestFor s1 w := rfl
      simp only [hl] at h ⊢
      cases hs : latestFor s1 w with
      | none => simp [tipTree, logBranch]
      | some sn =>
        simp only [hs] at h ⊢
        unfold restore at h ⊢
        cases hr : f.restore
        · simp [hr]
        · simp [hr] at h
    · simp [hk] at h

theorem contentOf_congr (s t : State) (v : WorkspaceID)
    (hv : t.view.currentWorkspace ≠ some v) (hs : s.view.currentWorkspace ≠ some v)
    (hsn : latestFor t v = latestFor s v)
    (hr : t.refs (RefName.branch v) = s.refs (RefName.branch v)) :
    contentOf t v = contentOf s v := by
  simp only [contentOf, hv, hs, if_false, hsn, tipTree, logBranch, hr]

theorem latestFor_congr (s t : State) (v : WorkspaceID) (h : t.snapshots = s.snapshots) :
    latestFor t v = latestFor s v := by
  simp only [latestFor, h]

/-- What a successful call establishes. -/
theorem open_spec (f : Faults) (s : State) (w : WorkspaceID)
    (h : (openWorkspaceOnView f s w).err = none) :
    (openWorkspaceOnView f s w).state.view.currentWorkspace = some w ∧
    (openWorkspaceOnView f s w).state.workTree = contentOf s w ∧
    (∀ v, contentOf (openWorkspaceOnView f s w).state v = contentOf s v) := by
  by_cases hcur : s.view.currentWorkspace = some w
  · simp [openWorkspaceOnView, hcur, contentOf]
  · obtain ⟨s1, hcap, hb, -, hsn, hrefs, htree⟩ := open_slow f s w hcur h
    have key : (∀ v, s1.refs (RefName.branch v) = s.refs (RefName.branch v)) ∧
        (∀ v, s.view.currentWorkspace ≠ some v → latestFor s1 v = latestFor s v) ∧
        (∀ v, s.view.currentWorkspace = some v →
          ∃ sn, latestFor s1 v = some sn ∧ sn.commit.tree = s.workTree) := by
      cases hc : s.view.currentWorkspace with
      | none =>
        rw [hc] at hcap
        injection hcap with hcap
        subst hcap
        simp
      | some cur =>
        rw [hc] at hcap
        obtain ⟨-, -, h3, h4⟩ := capture_ok s s1 f cur hcap
        refine ⟨h3, fun v hv => ?_, fun v hv => ?_⟩
        · rw [h4 v, if_neg]
          intro hcv
          exact hv (by rw [hcv])
        · injection hv with hv
          subst hv
          exact ⟨_, by rw [h4 cur, if_pos rfl], rfl⟩
    obtain ⟨k1, k2, k3⟩ := key
    have hw : (openWorkspaceOnView f s w).state.workTree = contentOf s w := by
      rw [htree, k2 w hcur]
      simp only [contentOf, hcur, if_false, tipTree, logBranch, k1]
    refine ⟨hb, hw, fun v => ?_⟩
    by_cases hv : v = w
    · subst hv
      rw [← hw]
      simp only [contentOf, hb, if_true]
    · have hv' : (openWorkspaceOnView f s w).state.view.currentWorkspace ≠ some v := by
        rw [hb]
        intro hh
        injection hh with hh
        exact hv hh.symm
      by_cases hsv : s.view.currentWorkspace = some v
      · obtain ⟨sn, hsn1, hsn2⟩ := k3 v hsv
        simp only [contentOf, hv', if_false, hsv, if_true]
        rw [latestFor_congr s1 _ v hsn, hsn1]
        exact hsn2
      · apply contentOf_congr _ _ _ hv' hsv
        · rw [latestFor_congr s1 _ v hsn, k2 v hsv]
        · rw [hrefs, k1]

theorem run_append (s : State) (xs ys : List Op) :
    run s (xs ++ ys) = run (run s xs) ys := by
  induction xs generalizing s with
  | nil => rfl
  | cons x xs ih => simp [run, ih]

theorem allSucceed_append (s : State) (xs ys : List Op) :
    allSucceed s (xs ++ ys) = (allSucceed s xs && allSucceed (run s xs) ys) := by
  induction xs generalizing s with
  | nil => simp [allSucceed, run]
  | cons x xs ih => simp [allSucceed, run, ih, Bool.and_assoc]

theorem contentOf_current (s : State) (cur : WorkspaceID)
    (h : s.view.currentWorkspace = some cur) : contentOf s cur = s.workTree := by
  simp [contentOf, h]

/-- An edit changes the content of the open workspace only. -/
theorem contentOf_edit (s : State) (e : Edit) (cur v : WorkspaceID)
    (h : s.view.currentWorkspace = some cur) :
    contentOf (step s (Op.edit e)).state v =
      if v = cur then e.apply (contentOf s v) else contentOf s v := by
  by_cases hv : v = cur
  · subst hv
    simp [contentOf, step, h]
  · have : ¬ cur = v := fun hh => hv hh.symm
    simp [contentOf, step, h, hv, this, latestFor, tipTree, logBranch]

/-- While nobody edits workspace `a`, its content stays what it was. -/
theorem contentOf_run_avoid (a : WorkspaceID) (ops : List Op) :
    ∀ (s : State) (cur : WorkspaceID), s.view.currentWorkspace = some cur →
      editsAvoid a (some cur) ops = true → allSucceed s ops = true →
      contentOf (run s ops) a = contentOf s a := by
  induction ops with
  | nil => intro s cur _ _ _; rfl
  | cons op rest ih =>
    intro s cur hcur hav hok
    simp only [allSucceed, Bool.and_eq_true, Option.isNone_iff_eq_none] at hok
    cases op with
    | edit e =>
      simp only [editsAvoid, Bool.and_eq_true, decide_eq_true_eq] at hav
      have hne : a ≠ cur := fun hh => hav.1 (by rw [hh])
      have hcur' : (step s (Op.edit e)).state.view.currentWorkspace = some cur := hcur
      rw [run, ih _ cur hcur' hav.2 hok.2, contentOf_edit s e cur a hcur, if_neg hne]
    | openWs w f =>
      simp only [editsAvoid] at hav
      have hs := open_spec f s w hok.1
      rw [run]
      change (openWorkspaceOnView f s w).err = none ∧
        allSucceed (openWorkspaceOnView f s w).state rest = true at hok
      change contentOf (run (openWorkspaceOnView f s w).state rest) a = contentOf s a
      rw [ih _ w hs.1 hav hok.2]
      exact hs.2.2 a

theorem readFile_apply_other (e : Edit) (t : Tree) (p : Path) (h : e.path ≠ p) :
    readFile (e.apply t) p = readFile t p := by
  cases e with
  | write q c => exact readFile_writeFile_other t p q c h
  | remove q => exact readFile_removeFile_other t p q h

/-- A file written only while `b` is open stays absent from `a` and present in `b`. -/
theorem file_only_on (a b : WorkspaceID) (p : Path) (hab : a ≠ b) (ops : List Op) :
    ∀ (s : State) (cur : WorkspaceID), s.view.currentWorkspace = some cur →
      touchedOnlyOn b p (some cur) ops = true → allSucceed s ops = true →
      readFile (contentOf s a) p = none → (readFile (contentOf s b) p).isSome = true →
      (∃ cur2, (run s ops).view.currentWorkspace = some cur2) ∧
      readFile (contentOf (run s ops) a) p = none ∧
      (readFile (contentOf (run s ops) b) p).isSome = true := by
  induction ops with
  | nil => intro s cur hcur _ _ ha hb; exact ⟨⟨cur, hcur⟩, ha, hb⟩
  | cons op rest ih =>
    intro s cur hcur hto hok ha hb
    simp only [allSucceed, Bool.and_eq_true, Option.isNone_iff_eq_none] at hok
    cases op with
    | edit e =>
      have hcur2 : (step s (Op.edit e)).state.view.currentWorkspace = some cur := hcur
      have hrest : touchedOnlyOn b p (some cur) rest = true := by
        cases e <;> simp only [touchedOnlyOn, Bool.and_eq_true] at hto <;> exact hto.2
      rw [run]
      apply ih _ cur hcur2 hrest hok.2
      · rw [contentOf_edit s e cur a hcur]
        by_cases hac : a = cur
        · rw [if_pos hac]
          have hcb : ¬ cur = b := fun hh => hab (hac.trans hh)
          have hq : e.path ≠ p := by
            cases e <;>
              simp only [touchedOnlyOn, Bool.and_eq_true, Bool.or_eq_true, decide_eq_true_eq,
                Option.some.injEq, hcb, or_false] at hto <;> exact hto.1
          rw [readFile_apply_other e _ p hq]
          exact ha
        · rw [if_neg hac]
          exact ha
      · rw [contentOf_edit s e cur b hcur]
        by_cases hbc : b = cur
        · rw [if_pos hbc]
          by_cases hq : e.path = p
          · cases e with
            | write q c =>
              have hq2 : q = p := hq
              subst hq2
              simp [Edit.apply, readFile_writeFile_same]
            | remove q =>
              simp only [touchedOnlyOn, Bool.and_eq_true, decide_eq_true_eq] at hto
              exact absurd hq hto.1
          · rw [readFile_apply_other e _ p hq]
            exact hb
        · rw [if_neg hbc]
          exact hb
    | openWs w f =>
      simp only [touchedOnlyOn] at hto
      change (openWorkspaceOnView f s w).err = none ∧
        allSucceed (openWorkspaceOnView f s w).state rest = true at hok
      have hs := open_spec f s w hok.1
      rw [run]
      change (∃ cur2, (run (openWorkspaceOnView f s w).state rest).view.currentWorkspace = some cur2) ∧
        readFile (contentOf (run (openWorkspaceOnView f s w).state rest) a) p = none ∧
        (readFile (contentOf (run (openWorkspaceOnView f s w).state rest) b) p).isSome = true
      apply ih _ w hs.1 hto hok.2
      · rw [hs.2.2 a]
        exact ha
      · rw [hs.2.2 b]
        exact hb

/-- Claim C1 (lossless round trip). A view is on workspace `A` with working-tree
content `E`. Opening another workspace `B`, then editing and switching between
workspaces any number of times without editing while `A` is open, then opening
`A` again (all calls succeeding) leaves the working tree with exactly `E`.
And a file that does not exist on `A`, created after `B` was opened and from
then on written only while `B` is open, exists whenever `B` is open and does not
exist whenever `A` is open. -/
theorem openWorkspaceOnView_round_trip (s : State) (A B : WorkspaceID)
    (hA : s.view.currentWorkspace = some A) (hAB : A ≠ B) :
    (∀ (f g : Faults) (ops : List Op),
      editsAvoid A (some B) ops = true →
      allSucceed s (Op.openWs B f :: ops ++ [Op.openWs A g]) = true →
      (run s (Op.openWs B f :: ops ++ [Op.openWs A g])).workTree = s.workTree) ∧
    (∀ (f : Faults) (p : Path) (c : Content) (ops : List Op),
      readFile s.workTree p = none →
      touchedOnlyOn B p (some B) ops = true →
      allSucceed s (Op.openWs B f :: Op.edit (Edit.write p c) :: ops) = true →
      ((run s (Op.openWs B f :: Op.edit (Edit.write p c) :: ops)).view.currentWorkspace = some B →
        (readFile (run s (Op.openWs B f :: Op.edit (Edit.write p c) :: ops)).workTree p).isSome
          = true) ∧
      ((run s (Op.openWs B f :: Op.edit (Edit.write p c) :: ops)).view.currentWorkspace = some A →
        readFile (run s (Op.openWs B f :: Op.edit (Edit.write p c) :: ops)).workTree p = none)) := by
  constructor
  · intro f g ops hav hok
    rw [allSucceed_append] at hok
    simp only [allSucceed, Bool.and_eq_true, Option.isNone_iff_eq_none, Bool.and_true] at hok
    obtain ⟨⟨hB, hops⟩, hlast⟩ := hok
    change (openWorkspaceOnView f s B).err = none at hB
    change allSucceed (openWorkspaceOnView f s B).state ops = true at hops
    have hs := open_spec f s B hB
    rw [run_append]
    have hmid : contentOf (run s (Op.openWs B f :: ops)) A = s.workTree := by
      change contentOf (run (openWorkspaceOnView f s B).state ops) A = s.workTree
      rw [contentOf_run_avoid A ops _ B hs.1 hav hops, hs.2.2 A]
      exact contentOf_current s A hA
    change (openWorkspaceOnView g (run s (Op.openWs B f :: ops)) A).err = none at hlast
    have hfin := open_spec g _ A hlast
    change (openWorkspaceOnView g (run s (Op.openWs B f :: ops)) A).state.workTree = s.workTree
    rw [hfin.2.1, hmid]
  · intro f p c ops hp hto hok
    simp only [allSucceed, Bool.and_eq_true, Option.isNone_iff_eq_none] at hok
    obtain ⟨hB, -, hops⟩ := hok
    change (openWorkspaceOnView f s B).err = none at hB
    have hs := open_spec f s B hB
    have hcur1 : (step (step s (Op.openWs B f)).state (Op.edit (Edit.write p c))).state.view.currentWorkspace
        = some B := hs.1
    have hinv := file_only_on A B p hAB ops _ B hcur1 hto hops
      (by
        change readFile (contentOf (step (openWorkspaceOnView f s B).state
          (Op.edit (Edit.write p c))).state A) p = none
        rw [contentOf_edit _ _ B A hs.1, if_neg hAB, hs.2.2 A, contentOf_current s A hA]
        exact hp)
      (by
        change (readFile (contentOf (step (openWorkspaceOnView f s B).state
          (Op.edit (Edit.write p c))).state B) p).isSome = true
        rw [contentOf_edit _ _ B B hs.1, if_pos rfl]
        simp [Edit.apply, readFile_writeFile_same])
    obtain ⟨-, hia, hib⟩ := hinv
    simp only [run]
    constructor
    · intro hc
      rw [← contentOf_current _ B hc]
      exact hib
    · intro hc
      rw [← contentOf_current _ A hc]
      exact hia

/-- Witness of C1 on the scenario of the test: `A` is left with "hello world",
`B` is opened and edited, `A` is opened again; and `newfile.txt` made on `B`. -/
theorem openWorkspaceOnView_round_trip_witness :
    (run testStart [Op.openWs "B" noFaults, Op.edit (Edit.write "a.txt" "BB"),
        Op.openWs "A" noFaults]).workTree = testStart.workTree ∧
    readFile (run testStart [Op.openWs "B" noFaults, Op.edit (Edit.write "newfile.txt" "stuff"),
        Op.openWs "A" noFaults]).workTree "newfile.txt" = none :=
  ⟨(openWorkspaceOnView_round_trip testStart "A" "B" rfl (by decide)).1 noFaults noFaults
      [Op.edit (Edit.write "a.txt" "BB")] (by decide) (by decide),
   ((openWorkspaceOnView_round_trip testStart "A" "B" rfl (by decide)).2 noFaults
      "newfile.txt" "stuff" [Op.openWs "A" noFaults] (by decide) (by decide) (by decide)).2
      (by decide)⟩

/-- The visible branches are never written by a call. -/
theorem open_refs_branch (f : Faults) (s : State) (w v : WorkspaceID) :
    (openWorkspaceOnView f s w).state.refs (RefName.branch v) = s.refs (RefName.branch v) := by
  unfold openWorkspaceOnView
  split
  · rfl
  · have hcap : ∀ s1, (match s.view.currentWorkspace with
        | none => Except.ok s
        | some cur => capture f s cur) = Except.ok s1 →
        s1.refs (RefName.branch v) = s.refs (RefName.branch v) := by
      intro s1 h
      cases hc : s.view.currentWorkspace with
      | none =>
        rw [hc] at h
        injection h with h
        rw [h]
      | some cur =>
        rw [hc] at h
        exact (capture_ok s s1 f cur h).2.2.1 v
    generalize (match s.view.currentWorkspace with
        | none => Except.ok s
        | some cur => capture f s cur) = cap at hcap
    cases cap with
    | error e => rfl
    | ok s1 =>
      have h1 := hcap s1 rfl
      simp only
      unfold checkout
      cases f.checkout
      · simp only [Bool.false_eq_true, if_false]
        have hl : ∀ (t : Tree) (ev : List Event),
            latestFor { s1 with workTree := t, events := ev } w = latestFor s1 w :=
          fun _ _ => rfl
        rw [hl]
        cases latestFor s1 w with
        | none => exact h1
        | some sn =>
          simp only
          unfold restore
          cases f.restore
          · exact h1
          · exact h1
      · simp only [if_true]
        exact h1

theorem step_logBranch (s : State) (op : Op) (v : WorkspaceID) :
    logBranch (step s op).state v = logBranch s v := by
  cases op with
  | edit e => rfl
  | openWs w f => exact open_refs_branch f s w v

theorem run_logBranch (ops : List Op) (s : State) (v : WorkspaceID) :
    logBranch (run s ops) v = logBranch s v := by
  induction ops generalizing s with
  | nil => rfl
  | cons op rest ih => rw [run, ih, step_logBranch]

/-- Claim C2 (no history pollution). For every sequence of calls of
`OpenWorkspaceOnView` on a view, succeeding or failing, with uncommitted edits
written between them, the branch log of every workspace is after every call
(after every prefix of the sequence) the log it had before the sequence; and a
capture leaves every branch log as it was while it puts its commit on the
hidden reference of the workspace. -/
theorem openWorkspaceOnView_no_history_pollution (s : State) (ops : List Op) (v : WorkspaceID) :
    (∀ n, logBranch (run s (ops.take n)) v = logBranch s v) ∧
    (∀ w, logBranch (match capture noFaults s w with
        | Except.ok s1 => s1
        | Except.error _ => s) v = logBranch s v ∧
      (match capture noFaults s w with
        | Except.ok s1 => s1
        | Except.error _ => s).refs (RefName.hidden w) =
        ⟨s.snapshots.length, s.workTree⟩ :: s.refs (RefName.hidden w)) :=
  ⟨fun n => run_logBranch (ops.take n) s v, fun w => ⟨by simp [capture, noFaults, logBranch],
    by simp [capture, noFaults]⟩⟩

/-- The test's assertion on the logs: after each step of the scenario the log
of the workspace equals the trunk log. -/
theorem test_logs_equal_trunk :
    ∀ n w, logBranch (run testStart (testOps.take n)) w = [trunkCommit] :=
  fun n w => run_logBranch (testOps.take n) testStart w

/-- The test's assertions on `a.txt` and `newfile.txt` hold of the model at
each of the ten steps. -/
theorem test_contents :
    (List.map (fun n => readFile (run testStart (testOps.take n)).workTree "a.txt")
        [1, 3, 5, 7, 9, 10, 11, 12, 14, 15]
      = [some "hello world\n", some "hello world\n", some "AA", some "BB", some "AAaa",
         some "BBbb", some "AAaa", some "BBbb", some "AAaa", some "BBbb"]) ∧
    (List.map (fun n => readFile (run testStart (testOps.take n)).workTree "newfile.txt")
        [1, 3, 5, 7, 9, 10, 11, 12, 14, 15]
      = [none, none, none, none, none, none, none, none, none, some "stuff"]) ∧
    allSucceed testStart testOps = true := by
  decide

/-- Claim C3 (idempotence of re-open). On a view already bound to `W`, a call of
`OpenWorkspaceOnView` for `W` succeeds whatever primitive would fail, leaves the
whole state and so the working tree as it was, also when called a second time,
and performs no capture, checkout or restore: no snapshot and no event is
added. -/
theorem openWorkspaceOnView_reopen_idempotent (f g : Faults) (s : State) (W : WorkspaceID)
    (h : s.view.currentWorkspace = some W) :
    (openWorkspaceOnView f s W).err = none ∧
    (openWorkspaceOnView f s W).state.workTree = s.workTree ∧
    (openWorkspaceOnView g (openWorkspaceOnView f s W).state W).err = none ∧
    (openWorkspaceOnView g (openWorkspaceOnView f s W).state W).state.workTree = s.workTree ∧
    (openWorkspaceOnView f s W).state.snapshots = s.snapshots ∧
    (openWorkspaceOnView f s W).state.events = s.events ∧
    (openWorkspaceOnView g (openWorkspaceOnView f s W).state W).state.snapshots = s.snapshots ∧
    (openWorkspaceOnView g (openWorkspaceOnView f s W).state W).state.events = s.events := by
  have h1 : openWorkspaceOnView f s W = ⟨none, s⟩ := by simp [openWorkspaceOnView, h]
  have h2 : openWorkspaceOnView g s W = ⟨none, s⟩ := by simp [openWorkspaceOnView, h]
  simp [h1, h2]

/-- Witness of C3: the first step of the test opens `A` on the view bound to `A`. -/
theorem openWorkspaceOnView_reopen_idempotent_witness :
    testStart.view.currentWorkspace = some "A" ∧
    (openWorkspaceOnView noFaults testStart "A").state.workTree = [("a.txt", "hello world\n")] ∧
    (openWorkspaceOnView noFaults testStart "A").state.events = [] :=
  ⟨rfl, (openWorkspaceOnView_reopen_idempotent noFaults noFaults testStart "A" rfl).2.1,
    (openWorkspaceOnView_reopen_idempotent noFaults noFaults testStart "A" rfl).2.2.2.2.2.1⟩

/-- The binding of the view is advanced only by a call that succeeds. -/
theorem open_err_view (f : Faults) (s : State) (w : WorkspaceID)
    (h : (openWorkspaceOnView f s w).err ≠ none) :
    (openWorkspaceOnView f s w).state.view = s.view := by
  unfold openWorkspaceOnView at h ⊢
  split
  · rfl
  · rename_i hcur
    simp only [hcur, if_false] at h
    have hcap : ∀ s1, (match s.view.currentWorkspace with
        | none => Except.ok s
        | some cur => capture f s cur) = Except.ok s1 → s1.view = s.view := by
      intro s1 hh
      cases hc : s.view.currentWorkspace with
      | none =>
        rw [hc] at hh
        injection hh with hh
        rw [hh]
      | some cur =>
        rw [hc] at hh
        exact (capture_ok s s1 f cur hh).2.1
    generalize (match s.view.currentWorkspace with
        | none => Except.ok s
        | some cur => capture f s cur) = cap at hcap h
    cases cap with
    | error e => rfl
    | ok s1 =>
      have h1 := hcap s1 rfl
      simp only at h ⊢
      unfold checkout at h ⊢
      cases hk : f.checkout
      · simp only [hk, Bool.false_eq_true, if_false] at h ⊢
        have hl : ∀ (t : Tree) (ev : List Event),
            latestFor { s1 with workTree := t, events := ev } w = latestFor s1 w :=
          fun _ _ => rfl
        rw [hl] at h ⊢
        cases hs : latestFor s1 w with
        | none => simp [hs] at h
        | some sn =>
          simp only [hs] at h ⊢
          unfold restore at h ⊢
          cases hr : f.restore
          · simp [hr] at h
          · simp only [hr, if_true]
            exact h1
      · simp only [if_true]
        exact h1


/-- A failing checkout, or a failing restore of an existing snapshot, makes the
call fail. -/
theorem open_fails (f : Faults) (s : State) (w : WorkspaceID)
    (hcur : s.view.currentWorkspace ≠ some w)
    (hfail : f.checkout = true ∨ (f.restore = true ∧ (latestFor s w).isSome = true)) :
    (openWorkspaceOnView f s w).err = some Err.versionControlFailure := by
  cases herr : (openWorkspaceOnView f s w).err with
  | some e => cases e; rfl
  | none =>
    exfalso
    obtain ⟨s1, hcap, -, -, -, -, -⟩ := open_slow f s w hcur herr
    have hl : latestFor s1 w = latestFor s w := by
      cases hc : s.view.currentWorkspace with
      | none =>
        rw [hc] at hcap
        injection hcap with hcap
        rw [hcap]
      | some cur =>
        rw [hc] at hcap
        rw [(capture_ok s s1 f cur hcap).2.2.2 w, if_neg]
        intro hcw
        exact hcur (by rw [hc, hcw])
    unfold openWorkspaceOnView at herr
    simp only [hcur, if_false, hcap] at herr
    unfold checkout at herr
    rcases hfail with hk | ⟨hr, hsn⟩
    · simp [hk] at herr
    · cases hk : f.checkout
      · simp only [hk, Bool.false_eq_true, if_false] at herr
        have hl2 : ∀ (t : Tree) (ev : List Event),
            latestFor { s1 with workTree := t, events := ev } w = latestFor s1 w :=
          fun _ _ => rfl
        rw [hl2, hl] at herr
        cases hs : latestFor s w with
        | none => simp [hs] at hsn
        | some sn => simp [hs, restore, hr] at herr
      · simp [hk] at herr

/-- Claim C4 (failure atomicity). Whenever a call of `OpenWorkspaceOnView` returns
an error, the view record, and with it the persisted workspace binding, is the
one from before the call. And when the view is not already on `W`, a failing
branch checkout, or a failing restore of the latest snapshot of `W`, makes the
call return an error with the binding not advanced to `W`. -/
theorem openWorkspaceOnView_failure_atomic (f : Faults) (s : State) (W : WorkspaceID) :
    ((openWorkspaceOnView f s W).err ≠ none →
      (openWorkspaceOnView f s W).state.view = s.view) ∧
    (s.view.currentWorkspace ≠ some W →
      (f.checkout = true ∨ (f.restore = true ∧ (latestFor s W).isSome = true)) →
      (openWorkspaceOnView f s W).err = some Err.versionControlFailure ∧
      (openWorkspaceOnView f s W).state.view.currentWorkspace = s.view.currentWorkspace ∧
      (openWorkspaceOnView f s W).state.view.currentWorkspace ≠ some W) := by
  refine ⟨open_err_view f s W, fun hcur hfail => ?_⟩
  have he := open_fails f s W hcur hfail
  have hv := open_err_view f s W (by rw [he]; simp)
  refine ⟨he, by rw [hv], by rw [hv]; exact hcur⟩

/-- Witness of C4: in the scenario of the test, after `A` was left once, the view
is on `B`; opening `A` with a failing checkout, and with a failing restore, both
fail and leave the view on `B`. -/
theorem openWorkspaceOnView_failure_atomic_witness :
    ((openWorkspaceOnView ⟨false, true, false, false⟩ (run testStart (testOps.take 4)) "A").err
        = some Err.versionControlFailure ∧
      (openWorkspaceOnView ⟨false, true, false, false⟩
        (run testStart (testOps.take 4)) "A").state.view.currentWorkspace = some "B") ∧
    ((openWorkspaceOnView ⟨false, false, true, false⟩ (run testStart (testOps.take 4)) "A").err
        = some Err.versionControlFailure ∧
      (openWorkspaceOnView ⟨false, false, true, false⟩
        (run testStart (testOps.take 4)) "A").state.view.currentWorkspace = some "B") :=
  ⟨⟨((openWorkspaceOnView_failure_atomic ⟨false, true, false, false⟩
        (run testStart (testOps.take 4)) "A").2 (by decide) (Or.inl rfl)).1,
    ((openWorkspaceOnView_failure_atomic ⟨false, true, false, false⟩
        (run testStart (testOps.take 4)) "A").2 (by decide) (Or.inl rfl)).2.1⟩,
   ⟨((openWorkspaceOnView_failure_atomic ⟨false, false, true, false⟩
        (run testStart (testOps.take 4)) "A").2 (by decide) (Or.inr ⟨rfl, by decide⟩)).1,
    ((openWorkspaceOnView_failure_atomic ⟨false, false, true, false⟩
        (run testStart (testOps.take 4)) "A").2 (by decide) (Or.inr ⟨rfl, by decide⟩)).2.1⟩⟩

end Sturdy.Binder

/-! ## The create-view handler -/

namespace Sturdy.Routes

theorem create_bind_err (env : Env) (store : ViewStore) (body : Body) (m : String)
    (h1 : ShouldBindJSON body = Except.error m) :
    Create env store body = ⟨⟨400, ResponseBody.error "failed to parse or validate input"⟩, store,
      [Event.logWarn "failed to parse input"]⟩ := by
  simp [Create, h1]

theorem create_auth_err (env : Env) (store : ViewStore) (body : Body) (req : CreateRequest)
    (h1 : ShouldBindJSON body = Except.ok req) (h2 : env.authUserID = none) :
    Create env store body = ⟨⟨401, ResponseBody.empty⟩, store, [Event.authUserID]⟩ := by
  simp [Create, h1, h2]

theorem create_access_err (env : Env) (store : ViewStore) (body : Body) (req : CreateRequest)
    (u : String)
    (h1 : ShouldBindJSON body = Except.ok req) (h2 : env.authUserID = some u)
    (h3 : env.userHasAccessToCodebase u req.CodebaseID = false) :
    Create env store body = ⟨⟨401, ResponseBody.empty⟩, store,
      [Event.authUserID, Event.userHasAccessToCodebase u req.CodebaseID]⟩ := by
  simp [Create, h1, h2, h3]

theorem create_repo_err (env : Env) (store : ViewStore) (body : Body) (req : CreateRequest)
    (u : String)
    (h1 : ShouldBindJSON body = Except.ok req) (h2 : env.authUserID = some u)
    (h3 : env.userHasAccessToCodebase u req.CodebaseID = true)
    (h4 : env.viewRepoCreateErr (newView env u req) = true) :
    Create env store body = ⟨⟨400, ResponseBody.error "failed to create view"⟩, store,
      [Event.authUserID, Event.userHasAccessToCodebase u req.CodebaseID,
       Event.viewRepoCreate (newView env u req), Event.logError "failed to create view"]⟩ := by
  simp [Create, h1, h2, h3, h4, viewRepoCreate]

theorem create_exec_err (env : Env) (store : ViewStore) (body : Body) (req : CreateRequest)
    (u : String)
    (h1 : ShouldBindJSON body = Except.ok req) (h2 : env.authUserID = some u)
    (h3 : env.userHasAccessToCodebase u req.CodebaseID = true)
    (h4 : env.viewRepoCreateErr (newView env u req) = false)
    (h5 : env.execViewErr (createExecutor req (newView env u req)) req.CodebaseID
      (newView env u req).ID "createView" = true) :
    Create env store body = ⟨⟨400, ResponseBody.error "failed to create view"⟩,
      store ++ [newView env u req],
      [Event.authUserID, Event.userHasAccessToCodebase u req.CodebaseID,
       Event.viewRepoCreate (newView env u req),
       Event.execView (createExecutor req (newView env u req)) req.CodebaseID
         (newView env u req).ID "createView",
       Event.logError "failed to create view"]⟩ := by
  simp [Create, h1, h2, h3, h4, h5, viewRepoCreate]

theorem create_get_err (env : Env) (store : ViewStore) (body : Body) (req : CreateRequest)
    (u : String)
    (h1 : ShouldBindJSON body = Except.ok req) (h2 : env.authUserID = some u)
    (h3 : env.userHasAccessToCodebase u req.CodebaseID = true)
    (h4 : env.viewRepoCreateErr (newView env u req) = false)
    (h5 : env.execViewErr (createExecutor req (newView env u req)) req.CodebaseID
      (newView env u req).ID "createView" = false)
    (h6 : env.workspaceGet req.WorkspaceID = none) :
    Create env store body = ⟨⟨500, ResponseBody.empty⟩,
      store ++ [newView env u req],
      [Event.authUserID, Event.userHasAccessToCodebase u req.CodebaseID,
       Event.viewRepoCreate (newView env u req),
       Event.execView (createExecutor req (newView env u req)) req.CodebaseID
         (newView env u req).ID "createView",
       Event.workspaceGet req.WorkspaceID,
       Event.logError "failed to get workspace"]⟩ := by
  simp [Create, h1, h2, h3, h4, h5, h6, viewRepoCreate]

theorem create_open_err (env : Env) (store : ViewStore) (body : Body) (req : CreateRequest)
    (u : String) (ws : Workspace)
    (h1 : ShouldBindJSON body = Except.ok req) (h2 : env.authUserID = some u)
    (h3 : env.userHasAccessToCodebase u req.CodebaseID = true)
    (h4 : env.viewRepoCreateErr (newView env u req) = false)
    (h5 : env.execViewErr (createExecutor req (newView env u req)) req.CodebaseID
      (newView env u req).ID "createView" = false)
    (h6 : env.workspaceGet req.WorkspaceID = some ws)
    (h7 : env.openWorkspaceOnView (newView env u req) ws = none) :
    Create env store body = ⟨⟨500, ResponseBody.empty⟩,
      store ++ [newView env u req],
      [Event.authUserID, Event.userHasAccessToCodebase u req.CodebaseID,
       Event.viewRepoCreate (newView env u req),
       Event.execView (createExecutor req (newView env u req)) req.CodebaseID
         (newView env u req).ID "createView",
       Event.workspaceGet req.WorkspaceID,
       Event.openWorkspaceOnView (newView env u req) ws,
       Event.logError "failed to open workspace on view"]⟩ := by
  simp [Create, h1, h2, h3, h4, h5, h6, h7, viewRepoCreate]

theorem create_ok (env : Env) (store : ViewStore) (body : Body) (req : CreateRequest)
    (u : String) (ws : Workspace) (e1 : View)
    (h1 : ShouldBindJSON body = Except.ok req) (h2 : env.authUserID = some u)
    (h3 : env.userHasAccessToCodebase u req.CodebaseID = true)
    (h4 : env.viewRepoCreateErr (newView env u req) = false)
    (h5 : env.execViewErr (createExecutor req (newView env u req)) req.CodebaseID
      (newView env u req).ID "createView" = false)
    (h6 : env.workspaceGet req.WorkspaceID = some ws)
    (h7 : env.openWorkspaceOnView (newView env u req) ws = some e1) :
    Create env store body = ⟨⟨200, ResponseBody.view e1⟩,
      store ++ [newView env u req],
      [Event.authUserID, Event.userHasAccessToCodebase u req.CodebaseID,
       Event.viewRepoCreate (newView env u req),
       Event.execView (createExecutor req (newView env u req)) req.CodebaseID
         (newView env u req).ID "createView",
       Event.workspaceGet req.WorkspaceID,
       Event.openWorkspaceOnView (newView env u req) ws,
       Event.analyticsEnqueue (createCapture u req e1)] ++
       (if env.analyticsEnqueueErr (createCapture u req e1) then
         [Event.logError "analytics failed"] else [])⟩ := by
  cases h8 : env.analyticsEnqueueErr (createCapture u req e1) <;>
    simp [Create, h1, h2, h3, h4, h5, h6, h7, h8, viewRepoCreate]


/-- Case analysis on the path a run takes: a property that holds of the outcome
of each of the eight paths holds of `Create`. -/
theorem create_cases (env : Env) (store : ViewStore) (body : Body) (P : Outcome → Prop)
    (c1 : ∀ m, ShouldBindJSON body = Except.error m →
      P ⟨⟨400, ResponseBody.error "failed to parse or validate input"⟩, store,
        [Event.logWarn "failed to parse input"]⟩)
    (c2 : ∀ req, ShouldBindJSON body = Except.ok req → env.authUserID = none →
      P ⟨⟨401, ResponseBody.empty⟩, store, [Event.authUserID]⟩)
    (c3 : ∀ req u, ShouldBindJSON body = Except.ok req → env.authUserID = some u →
      env.userHasAccessToCodebase u req.CodebaseID = false →
      P ⟨⟨401, ResponseBody.empty⟩, store,
        [Event.authUserID, Event.userHasAccessToCodebase u req.CodebaseID]⟩)
    (c4 : ∀ req u, ShouldBindJSON body = Except.ok req → env.authUserID = some u →
      env.userHasAccessToCodebase u req.CodebaseID = true →
      env.viewRepoCreateErr (newView env u req) = true →
      P ⟨⟨400, ResponseBody.error "failed to create view"⟩, store,
        [Event.authUserID, Event.userHasAccessToCodebase u req.CodebaseID,
         Event.viewRepoCreate (newView env u req), Event.logError "failed to create view"]⟩)
    (c5 : ∀ req u, ShouldBindJSON body = Except.ok req → env.authUserID = some u →
      env.userHasAccessToCodebase u req.CodebaseID = true →
      env.viewRepoCreateErr (newView env u req) = false →
      env.execViewErr (createExecutor req (newView env u req)) req.CodebaseID
        (newView env u req).ID "createView" = true →
      P ⟨⟨400, ResponseBody.error "failed to create view"⟩, store ++ [newView env u req],
        [Event.authUserID, Event.userHasAccessToCodebase u req.CodebaseID,
         Event.viewRepoCreate (newView env u req),
         Event.execView (createExecutor req (newView env u req)) req.CodebaseID
           (newView env u req).ID "createView",
         Event.logError "failed to create view"]⟩)
    (c6 : ∀ req u, ShouldBindJSON body = Except.ok req → env.authUserID = some u →
      env.userHasAccessToCodebase u req.CodebaseID = true →
      env.viewRepoCreateErr (newView env u req) = false →
      env.execViewErr (createExecutor req (newView env u req)) req.CodebaseID
        (newView env u req).ID "createView" = false →
      env.workspaceGet req.WorkspaceID = none →
      P ⟨⟨500, ResponseBody.empty⟩, store ++ [newView env u req],
        [Event.authUserID, Event.userHasAccessToCodebase u req.CodebaseID,
         Event.viewRepoCreate (newView env u req),
         Event.execView (createExecutor req (newView env u req)) req.CodebaseID
           (newView env u req).ID "createView",
         Event.workspaceGet req.WorkspaceID,
         Event.logError "failed to get workspace"]⟩)
    (c7 : ∀ req u ws, ShouldBindJSON body = Except.ok req → env.authUserID = some u →
      env.userHasAccessToCodebase u req.CodebaseID = true →
      env.viewRepoCreateErr (newView env u req) = false →
      env.execViewErr (createExecutor req (newView env u req)) req.CodebaseID
        (newView env u req).ID "createView" = false →
      env.workspaceGet req.WorkspaceID = some ws →
      env.openWorkspaceOnView (newView env u req) ws = none →
      P ⟨⟨500, ResponseBody.empty⟩, store ++ [newView env u req],
        [Event.authUserID, Event.userHasAccessToCodebase u req.CodebaseID,
         Event.viewRepoCreate (newView env u req),
         Event.execView (createExecutor req (newView env u req)) req.CodebaseID
           (newView env u req).ID "createView",
         Event.workspaceGet req.WorkspaceID,
         Event.openWorkspaceOnView (newView env u req) ws,
         Event.logError "failed to open workspace on view"]⟩)
    (c8 : ∀ req u ws e1, ShouldBindJSON body = Except.ok req → env.authUserID = some u →
      env.userHasAccessToCodebase u req.CodebaseID = true →
      env.viewRepoCreateErr (newView env u req) = false →
      env.execViewErr (createExecutor req (newView env u req)) req.CodebaseID
        (newView env u req).ID "createView" = false →
      env.workspaceGet req.WorkspaceID = some ws →
      env.openWorkspaceOnView (newView env u req) ws = some e1 →
      P ⟨⟨200, ResponseBody.view e1⟩, store ++ [newView env u req],
        [Event.authUserID, Event.userHasAccessToCodebase u req.CodebaseID,
         Event.viewRepoCreate (newView env u req),
         Event.execView (createExecutor req (newView env u req)) req.CodebaseID
           (newView env u req).ID "createView",
         Event.workspaceGet req.WorkspaceID,
         Event.openWorkspaceOnView (newView env u req) ws,
         Event.analyticsEnqueue (createCapture u req e1)] ++
         (if env.analyticsEnqueueErr (createCapture u req e1) then
           [Event.logError "analytics failed"] else [])⟩) :
    P (Create env store body) := by
  cases h1 : ShouldBindJSON body with
  | error m => rw [create_bind_err env store body m h1]; exact c1 m h1
  | ok req =>
    cases h2 : env.authUserID with
    | none => rw [create_auth_err env store body req h1 h2]; exact c2 req h1 h2
    | some u =>
      cases h3 : env.userHasAccessToCodebase u req.CodebaseID with
      | false => rw [create_access_err env store body req u h1 h2 h3]; exact c3 req u h1 h2 h3
      | true =>
        cases h4 : env.viewRepoCreateErr (newView env u req) with
        | true => rw [create_repo_err env store body req u h1 h2 h3 h4]; exact c4 req u h1 h2 h3 h4
        | false =>
          cases h5 : env.execViewErr (createExecutor req (newView env u req)) req.CodebaseID
            (newView env u req).ID "createView" with
          | true =>
            rw [create_exec_err env store body req u h1 h2 h3 h4 h5]
            exact c5 req u h1 h2 h3 h4 h5
          | false =>
            cases h6 : env.workspaceGet req.WorkspaceID with
            | none =>
              rw [create_get_err env store body req u h1 h2 h3 h4 h5 h6]
              exact c6 req u h1 h2 h3 h4 h5 h6
            | some ws =>
              cases h7 : env.openWorkspaceOnView (newView env u req) ws with
              | none =>
                rw [create_open_err env store body req u ws h1 h2 h3 h4 h5 h6 h7]
                exact c7 req u ws h1 h2 h3 h4 h5 h6 h7
              | some e1 =>
                rw [create_ok env store body req u ws e1 h1 h2 h3 h4 h5 h6 h7]
                exact c8 req u ws e1 h1 h2 h3 h4 h5 h6 h7


/-- Claim C6 (the working copy is made by one scheduled `vcs.Create`). In every
run of the create-view handler, `ExecView` is called at most once; every such
call runs an executor with the rebasing capability enabled whose only unit of
work is `vcs.Create` with the request's codebase ID, workspace ID and the new
view's ID, under the key made of the request's codebase ID and the freshly
generated view ID, which is the ID of the View record created and stored; and
the call is made exactly once when binding, authentication, the access check
and `viewRepo.Create` succeed. -/
theorem create_schedules_one_vcs_create (env : Env) (store : ViewStore) (body : Body) :
    (List.countP Event.isExecView (Create env store body).trace ≤ 1) ∧
    (∀ ex cb vid act, Event.execView ex cb vid act ∈ (Create env store body).trace →
      ∃ req u, ShouldBindJSON body = Except.ok req ∧ env.authUserID = some u ∧
        ex.allowRebasingState = true ∧
        ex.scheduled = [Work.vcsCreate req.CodebaseID req.WorkspaceID vid] ∧
        cb = req.CodebaseID ∧ vid = env.newUUID ∧ act = "createView" ∧
        (newView env u req).ID = vid ∧
        Event.viewRepoCreate (newView env u req) ∈ (Create env store body).trace ∧
        newView env u req ∈ (Create env store body).store) ∧
    (∀ req u, ShouldBindJSON body = Except.ok req → env.authUserID = some u →
      env.userHasAccessToCodebase u req.CodebaseID = true →
      env.viewRepoCreateErr (newView env u req) = false →
      List.countP Event.isExecView (Create env store body).trace = 1 ∧
      Event.execView ⟨true, [Work.vcsCreate req.CodebaseID req.WorkspaceID env.newUUID]⟩
        req.CodebaseID env.newUUID "createView" ∈ (Create env store body).trace) := by
  refine ⟨?_, ?_, ?_⟩
  · apply create_cases env store body
      (fun out => List.countP Event.isExecView out.trace ≤ 1)
    all_goals intros
    all_goals simp [List.countP_cons, Event.isExecView]
  · apply create_cases env store body
      (fun out => ∀ ex cb vid act, Event.execView ex cb vid act ∈ out.trace →
        ∃ req u, ShouldBindJSON body = Except.ok req ∧ env.authUserID = some u ∧
          ex.allowRebasingState = true ∧
          ex.scheduled = [Work.vcsCreate req.CodebaseID req.WorkspaceID vid] ∧
          cb = req.CodebaseID ∧ vid = env.newUUID ∧ act = "createView" ∧
          (newView env u req).ID = vid ∧
          Event.viewRepoCreate (newView env u req) ∈ out.trace ∧
          newView env u req ∈ out.store)
    · intro m _ ex cb vid act hmem
      simp at hmem
    · intro req _ _ ex cb vid act hmem
      simp at hmem
    · intro req u _ _ _ ex cb vid act hmem
      simp at hmem
    · intro req u _ _ _ _ ex cb vid act hmem
      simp at hmem
    · intro req u h1 h2 _ _ _ ex cb vid act hmem
      simp at hmem
      obtain ⟨rfl, rfl, rfl, rfl⟩ := hmem
      exact ⟨req, u, h1, h2, by simp [createExecutor, Executor.New, Executor.AllowRebasingState,
        Executor.Schedule, newView]⟩
    · intro req u h1 h2 _ _ _ _ ex cb vid act hmem
      simp at hmem
      obtain ⟨rfl, rfl, rfl, rfl⟩ := hmem
      exact ⟨req, u, h1, h2, by simp [createExecutor, Executor.New, Executor.AllowRebasingState,
        Executor.Schedule, newView]⟩
    · intro req u ws h1 h2 _ _ _ _ _ ex cb vid act hmem
      simp at hmem
      obtain ⟨rfl, rfl, rfl, rfl⟩ := hmem
      exact ⟨req, u, h1, h2, by simp [createExecutor, Executor.New, Executor.AllowRebasingState,
        Executor.Schedule, newView]⟩
    · intro req u ws e1 h1 h2 _ _ _ _ _ ex cb vid act hmem
      have hmem2 : (Event.execView ex cb vid act) =
          Event.execView (createExecutor req (newView env u req)) req.CodebaseID
            (newView env u req).ID "createView" := by
        split at hmem <;> simpa using hmem
      injection hmem2 with e1 e2 e3 e4
      subst e1 e2 e3 e4
      exact ⟨req, u, h1, h2, by simp [createExecutor, Executor.New, Executor.AllowRebasingState,
        Executor.Schedule, newView]⟩
  · intro req u h1 h2 h3 h4
    cases h5 : env.execViewErr (createExecutor req (newView env u req)) req.CodebaseID
      (newView env u req).ID "createView" with
    | true =>
      rw [create_exec_err env store body req u h1 h2 h3 h4 h5]
      simp [List.countP_cons, Event.isExecView, createExecutor, Executor.New,
        Executor.AllowRebasingState, Executor.Schedule, newView]
    | false =>
      cases h6 : env.workspaceGet req.WorkspaceID with
      | none =>
        rw [create_get_err env store body req u h1 h2 h3 h4 h5 h6]
        simp [List.countP_cons, Event.isExecView, createExecutor, Executor.New,
          Executor.AllowRebasingState, Executor.Schedule, newView]
      | some ws =>
        cases h7 : env.openWorkspaceOnView (newView env u req) ws with
        | none =>
          rw [create_open_err env store body req u ws h1 h2 h3 h4 h5 h6 h7]
          simp [List.countP_cons, Event.isExecView, createExecutor, Executor.New,
            Executor.AllowRebasingState, Executor.Schedule, newView]
        | some e1 =>
          rw [create_ok env store body req u ws e1 h1 h2 h3 h4 h5 h6 h7]
          split <;> simp [List.countP_cons, Event.isExecView, createExecutor, Executor.New,
            Executor.AllowRebasingState, Executor.Schedule, newView]


/-- Witness of C6: the run of `sampleEnv` on `sampleBody` calls `ExecView` once,
with `vcs.Create` for the new view under the key of the new view. -/
theorem create_schedules_one_vcs_create_witness :
    List.countP Event.isExecView (Create sampleEnv [] sampleBody).trace = 1 ∧
    Event.execView ⟨true, [Work.vcsCreate "codebase" "workspace" "view-1"]⟩
      "codebase" "view-1" "createView" ∈ (Create sampleEnv [] sampleBody).trace :=
  (create_schedules_one_vcs_create sampleEnv [] sampleBody).2.2 sampleRequest "user"
    rfl rfl rfl rfl

/-- Counterexample to C7 as stated: with a scheduled `vcs.Create` that fails, the
handler has already written the View record; the store holds the record of the
new view after the failed run. -/
theorem create_record_after_filesystem_counterexample :
    failingExecEnv.execViewErr (createExecutor sampleRequest
      (newView failingExecEnv "user" sampleRequest)) "codebase" "view-1" "createView" = true ∧
    (Create failingExecEnv [] sampleBody).response.status = 400 ∧
    (Create failingExecEnv [] sampleBody).store = [newView failingExecEnv "user" sampleRequest] ∧
    (newView failingExecEnv "user" sampleRequest).ID = failingExecEnv.newUUID ∧
    ¬ (∀ v ∈ (Create failingExecEnv [] sampleBody).store, v.ID ≠ failingExecEnv.newUUID) := by
  decide

/-- Claim C7, amended (record before filesystem). In the create-view handler the
View record is written first: `ExecView`, which runs the scheduled `vcs.Create`,
is called only in runs in which `viewRepo.Create` was called before it and
succeeded, so that the record of the new view is in the store; and whenever the
scheduled creation then fails, the handler responds 400, makes no further call,
and the store still holds the record of the new view. -/
theorem create_record_before_filesystem (env : Env) (store : ViewStore) (body : Body) :
    (∀ ex cb vid act, Event.execView ex cb vid act ∈ (Create env store body).trace →
      ∃ v pre post, v.ID = vid ∧
        (Create env store body).trace =
          pre ++ Event.viewRepoCreate v :: Event.execView ex cb vid act :: post ∧
        env.viewRepoCreateErr v = false ∧
        (Create env store body).store = store ++ [v]) ∧
    (∀ req u, ShouldBindJSON body = Except.ok req → env.authUserID = some u →
      env.userHasAccessToCodebase u req.CodebaseID = true →
      env.viewRepoCreateErr (newView env u req) = false →
      env.execViewErr (createExecutor req (newView env u req)) req.CodebaseID
        (newView env u req).ID "createView" = true →
      (Create env store body).response = ⟨400, ResponseBody.error "failed to create view"⟩ ∧
      (Create env store body).store = store ++ [newView env u req] ∧
      stepsOf (Create env store body).trace =
        [Step.auth, Step.access, Step.viewRepoCreate, Step.execView]) := by
  refine ⟨?_, ?_⟩
  · apply create_cases env store body
      (fun out => ∀ ex cb vid act, Event.execView ex cb vid act ∈ out.trace →
        ∃ v pre post, v.ID = vid ∧
          out.trace = pre ++ Event.viewRepoCreate v :: Event.execView ex cb vid act :: post ∧
          env.viewRepoCreateErr v = false ∧ out.store = store ++ [v])
    · intro m _ ex cb vid act hmem
      simp at hmem
    · intro req _ _ ex cb vid act hmem
      simp at hmem
    · intro req u _ _ _ ex cb vid act hmem
      simp at hmem
    · intro req u _ _ _ _ ex cb vid act hmem
      simp at hmem
    · intro req u _ _ _ h4 _ ex cb vid act hmem
      simp at hmem
      obtain ⟨rfl, rfl, rfl, rfl⟩ := hmem
      exact ⟨newView env u req, [Event.authUserID, Event.userHasAccessToCodebase u req.CodebaseID],
        _, rfl, rfl, h4, rfl⟩
    · intro req u _ _ _ h4 _ _ ex cb vid act hmem
      simp at hmem
      obtain ⟨rfl, rfl, rfl, rfl⟩ := hmem
      exact ⟨newView env u req, [Event.authUserID, Event.userHasAccessToCodebase u req.CodebaseID],
        _, rfl, rfl, h4, rfl⟩
    · intro req u ws _ _ _ h4 _ _ _ ex cb vid act hmem
      simp at hmem
      obtain ⟨rfl, rfl, rfl, rfl⟩ := hmem
      exact ⟨newView env u req, [Event.authUserID, Event.userHasAccessToCodebase u req.CodebaseID],
        _, rfl, rfl, h4, rfl⟩
    · intro req u ws e1 _ _ _ h4 _ _ _ ex cb vid act hmem
      have hmem2 : (Event.execView ex cb vid act) =
          Event.execView (createExecutor req (newView env u req)) req.CodebaseID
            (newView env u req).ID "createView" := by
        split at hmem <;> simpa using hmem
      injection hmem2 with e1 e2 e3 e4
      subst e1 e2 e3 e4
      exact ⟨newView env u req, [Event.authUserID, Event.userHasAccessToCodebase u req.CodebaseID],
        _, rfl, rfl, h4, rfl⟩
  · intro req u h1 h2 h3 h4 h5
    rw [create_exec_err env store body req u h1 h2 h3 h4 h5]
    simp [stepsOf, Event.step]

/-- Witness of C7 amended, on the run with the failing `vcs.Create`. -/
theorem create_record_before_filesystem_witness :
    (Create failingExecEnv [] sampleBody).response
      = ⟨400, ResponseBody.error "failed to create view"⟩ ∧
    (Create failingExecEnv [] sampleBody).store
      = [] ++ [newView failingExecEnv "user" sampleRequest] ∧
    stepsOf (Create failingExecEnv [] sampleBody).trace =
      [Step.auth, Step.access, Step.viewRepoCreate, Step.execView] :=
  (create_record_before_filesystem failingExecEnv [] sampleBody).2 sampleRequest "user"
    rfl rfl rfl rfl rfl

/-- Claim C8 (authorization precedes every effect). For every well-formed request
whose caller is unauthenticated, or has no access to the requested codebase,
the handler responds 401 with no body, leaves the view store as it was, and
makes none of the guarded calls: no `viewRepo.Create`, no `ExecView`, no
`workspaceReader.Get`, no `OpenWorkspaceOnView`, no analytics enqueue. -/
theorem create_unauthorized_no_effect (env : Env) (store : ViewStore) (body : Body)
    (req : CreateRequest) (hreq : ShouldBindJSON body = Except.ok req)
    (hun : env.authUserID = none ∨
      ∃ u, env.authUserID = some u ∧ env.userHasAccessToCodebase u req.CodebaseID = false) :
    (Create env store body).response = ⟨401, ResponseBody.empty⟩ ∧
    (Create env store body).store = store ∧
    (∀ ev ∈ (Create env store body).trace, ev.isGuarded = false) ∧
    (∀ s ∈ stepsOf (Create env store body).trace, s = Step.auth ∨ s = Step.access) := by
  rcases hun with h2 | ⟨u, h2, h3⟩
  · rw [create_auth_err env store body req hreq h2]
    simp [Event.isGuarded, stepsOf, Event.step]
  · rw [create_access_err env store body req u hreq h2 h3]
    simp [Event.isGuarded, stepsOf, Event.step]

/-- Witness of C8: a caller without access. -/
theorem create_unauthorized_no_effect_witness :
    (Create noAccessEnv [] sampleBody).response = ⟨401, ResponseBody.empty⟩ ∧
    (Create noAccessEnv [] sampleBody).store = [] :=
  ⟨(create_unauthorized_no_effect noAccessEnv [] sampleBody sampleRequest rfl
      (Or.inr ⟨"user", rfl, rfl⟩)).1,
   (create_unauthorized_no_effect noAccessEnv [] sampleBody sampleRequest rfl
      (Or.inr ⟨"user", rfl, rfl⟩)).2.1⟩


/-- Claim C9 (the handler returns a View or an error). The handler responds 200
exactly when input binding, authentication, the access check, `viewRepo.Create`,
the scheduled `vcs.Create`, `workspaceReader.Get` and `OpenWorkspaceOnView` all
succeed, and the body is then the View as `OpenWorkspaceOnView` left it, with all
seven steps executed. Otherwise the status is 400, 401 or 500 and the body is
no View; the step that fails is the last one executed (400 and no step for a
binding failure, 401 for authentication and access, 400 for `viewRepo.Create`
and `vcs.Create`, 500 for `workspaceReader.Get` and `OpenWorkspaceOnView`). The
outcome of the analytics enqueue never changes the response. -/
theorem create_returns_view_or_error (env : Env) (store : ViewStore) (body : Body) :
    ((Create env store body).response.status = 200 ↔
      ∃ req u ws e1, ShouldBindJSON body = Except.ok req ∧ env.authUserID = some u ∧
        env.userHasAccessToCodebase u req.CodebaseID = true ∧
        env.viewRepoCreateErr (newView env u req) = false ∧
        env.execViewErr (createExecutor req (newView env u req)) req.CodebaseID
          (newView env u req).ID "createView" = false ∧
        env.workspaceGet req.WorkspaceID = some ws ∧
        env.openWorkspaceOnView (newView env u req) ws = some e1) ∧
    (∀ req u ws e1, ShouldBindJSON body = Except.ok req → env.authUserID = some u →
      env.userHasAccessToCodebase u req.CodebaseID = true →
      env.viewRepoCreateErr (newView env u req) = false →
      env.execViewErr (createExecutor req (newView env u req)) req.CodebaseID
        (newView env u req).ID "createView" = false →
      env.workspaceGet req.WorkspaceID = some ws →
      env.openWorkspaceOnView (newView env u req) ws = some e1 →
      (Create env store body).response = ⟨200, ResponseBody.view e1⟩ ∧
      stepsOf (Create env store body).trace =
        [Step.auth, Step.access, Step.viewRepoCreate, Step.execView, Step.workspaceGet,
         Step.openWorkspaceOnView, Step.analyticsEnqueue]) ∧
    ((Create env store body).response.status ≠ 200 →
      ((Create env store body).response.status = 400 ∨
       (Create env store body).response.status = 401 ∨
       (Create env store body).response.status = 500) ∧
      ∀ v, (Create env store body).response.body ≠ ResponseBody.view v) ∧
    (∀ m, ShouldBindJSON body = Except.error m →
      (Create env store body).response.status = 400 ∧
      stepsOf (Create env store body).trace = []) ∧
    (∀ req, ShouldBindJSON body = Except.ok req → env.authUserID = none →
      (Create env store body).response.status = 401 ∧
      stepsOf (Create env store body).trace = [Step.auth]) ∧
    (∀ req u, ShouldBindJSON body = Except.ok req → env.authUserID = some u →
      env.userHasAccessToCodebase u req.CodebaseID = false →
      (Create env store body).response.status = 401 ∧
      stepsOf (Create env store body).trace = [Step.auth, Step.access]) ∧
    (∀ req u, ShouldBindJSON body = Except.ok req → env.authUserID = some u →
      env.userHasAccessToCodebase u req.CodebaseID = true →
      env.viewRepoCreateErr (newView env u req) = true →
      (Create env store body).response.status = 400 ∧
      stepsOf (Create env store body).trace = [Step.auth, Step.access, Step.viewRepoCreate]) ∧
    (∀ req u, ShouldBindJSON body = Except.ok req → env.authUserID = some u →
      env.userHasAccessToCodebase u req.CodebaseID = true →
      env.viewRepoCreateErr (newView env u req) = false →
      env.execViewErr (createExecutor req (newView env u req)) req.CodebaseID
        (newView env u req).ID "createView" = true →
      (Create env store body).response.status = 400 ∧
      stepsOf (Create env store body).trace =
        [Step.auth, Step.access, Step.viewRepoCreate, Step.execView]) ∧
    (∀ req u, ShouldBindJSON body = Except.ok req → env.authUserID = some u →
      env.userHasAccessToCodebase u req.CodebaseID = true →
      env.viewRepoCreateErr (newView env u req) = false →
      env.execViewErr (createExecutor req (newView env u req)) req.CodebaseID
        (newView env u req).ID "createView" = false →
      env.workspaceGet req.WorkspaceID = none →
      (Create env store body).response.status = 500 ∧
      stepsOf (Create env store body).trace =
        [Step.auth, Step.access, Step.viewRepoCreate, Step.execView, Step.workspaceGet]) ∧
    (∀ req u ws, ShouldBindJSON body = Except.ok req → env.authUserID = some u →
      env.userHasAccessToCodebase u req.CodebaseID = true →
      env.viewRepoCreateErr (newView env u req) = false →
      env.execViewErr (createExecutor req (newView env u req)) req.CodebaseID
        (newView env u req).ID "createView" = false →
      env.workspaceGet req.WorkspaceID = some ws →
      env.openWorkspaceOnView (newView env u req) ws = none →
      (Create env store body).response.status = 500 ∧
      stepsOf (Create env store body).trace =
        [Step.auth, Step.access, Step.viewRepoCreate, Step.execView, Step.workspaceGet,
         Step.openWorkspaceOnView]) ∧
    (∀ g, (Create { env with analyticsEnqueueErr := g } store body).response =
      (Create env store body).response) := by
  refine ⟨?_, ?_, ?_, ?_, ?_, ?_, ?_, ?_, ?_, ?_, ?_⟩
  · constructor
    · apply create_cases env store body
        (fun out => out.response.status = 200 →
          ∃ req u ws e1, ShouldBindJSON body = Except.ok req ∧ env.authUserID = some u ∧
            env.userHasAccessToCodebase u req.CodebaseID = true ∧
            env.viewRepoCreateErr (newView env u req) = false ∧
            env.execViewErr (createExecutor req (newView env u req)) req.CodebaseID
              (newView env u req).ID "createView" = false ∧
            env.workspaceGet req.WorkspaceID = some ws ∧
            env.openWorkspaceOnView (newView env u req) ws = some e1)
      · intro m _ h; simp at h
      · intro req _ _ h; simp at h
      · intro req u _ _ _ h; simp at h
      · intro req u _ _ _ _ h; simp at h
      · intro req u _ _ _ _ _ h; simp at h
      · intro req u _ _ _ _ _ _ h; simp at h
      · intro req u ws _ _ _ _ _ _ _ h; simp at h
      · intro req u ws e1 h1 h2 h3 h4 h5 h6 h7 _
        exact ⟨req, u, ws, e1, h1, h2, h3, h4, h5, h6, h7⟩
    · rintro ⟨req, u, ws, e1, h1, h2, h3, h4, h5, h6, h7⟩
      rw [create_ok env store body req u ws e1 h1 h2 h3 h4 h5 h6 h7]
  · intro req u ws e1 h1 h2 h3 h4 h5 h6 h7
    rw [create_ok env store body req u ws e1 h1 h2 h3 h4 h5 h6 h7]
    refine ⟨rfl, ?_⟩
    split <;> simp [stepsOf, Event.step]
  · apply create_cases env store body
      (fun out => out.response.status ≠ 200 →
        (out.response.status = 400 ∨ out.response.status = 401 ∨ out.response.status = 500) ∧
        ∀ v, out.response.body ≠ ResponseBody.view v)
    all_goals intros
    all_goals simp_all
  · intro m h1
    rw [create_bind_err env store body m h1]
    simp [stepsOf, Event.step]
  · intro req h1 h2
    rw [create_auth_err env store body req h1 h2]
    simp [stepsOf, Event.step]
  · intro req u h1 h2 h3
    rw [create_access_err env store body req u h1 h2 h3]
    simp [stepsOf, Event.step]
  · intro req u h1 h2 h3 h4
    rw [create_repo_err env store body req u h1 h2 h3 h4]
    simp [stepsOf, Event.step]
  · intro req u h1 h2 h3 h4 h5
    rw [create_exec_err env store body req u h1 h2 h3 h4 h5]
    simp [stepsOf, Event.step]
  · intro req u h1 h2 h3 h4 h5 h6
    rw [create_get_err env store body req u h1 h2 h3 h4 h5 h6]
    simp [stepsOf, Event.step]
  · intro req u ws h1 h2 h3 h4 h5 h6 h7
    rw [create_open_err env store body req u ws h1 h2 h3 h4 h5 h6 h7]
    simp [stepsOf, Event.step]
  · intro g
    apply create_cases env store body
      (fun out => (Create { env with analyticsEnqueueErr := g } store body).response =
        out.response)
    · intro m h1
      exact congrArg Outcome.response
        (create_bind_err { env with analyticsEnqueueErr := g } store body m h1)
    · intro req h1 h2
      exact congrArg Outcome.response
        (create_auth_err { env with analyticsEnqueueErr := g } store body req h1 h2)
    · intro req u h1 h2 h3
      exact congrArg Outcome.response
        (create_access_err { env with analyticsEnqueueErr := g } store body req u h1 h2 h3)
    · intro req u h1 h2 h3 h4
      exact congrArg Outcome.response
        (create_repo_err { env with analyticsEnqueueErr := g } store body req u h1 h2 h3 h4)
    · intro req u h1 h2 h3 h4 h5
      exact congrArg Outcome.response
        (create_exec_err { env with analyticsEnqueueErr := g } store body req u h1 h2 h3 h4 h5)
    · intro req u h1 h2 h3 h4 h5 h6
      exact congrArg Outcome.response
        (create_get_err { env with analyticsEnqueueErr := g } store body req u h1 h2 h3 h4 h5 h6)
    · intro req u ws h1 h2 h3 h4 h5 h6 h7
      exact congrArg Outcome.response
        (create_open_err { env with analyticsEnqueueErr := g } store body req u ws
          h1 h2 h3 h4 h5 h6 h7)
    · intro req u ws e1 h1 h2 h3 h4 h5 h6 h7
      rw [create_ok { env with analyticsEnqueueErr := g } store body req u ws e1
        h1 h2 h3 h4 h5 h6 h7]

/-- Witness of C9: the successful run, and the run whose `vcs.Create` fails. -/
theorem create_returns_view_or_error_witness :
    (Create sampleEnv [] sampleBody).response
      = ⟨200, ResponseBody.view (newView sampleEnv "user" sampleRequest)⟩ ∧
    (Create failingExecEnv [] sampleBody).response.status = 400 :=
  ⟨((create_returns_view_or_error sampleEnv [] sampleBody).2.1 sampleRequest "user"
      ⟨"workspace", "codebase", "user"⟩ (newView sampleEnv "user" sampleRequest)
      rfl rfl rfl rfl rfl rfl rfl).1,
   ((create_returns_view_or_error failingExecEnv [] sampleBody).2.2.2.2.2.2.2.1
      sampleRequest "user" rfl rfl rfl rfl rfl).1⟩

/-- A request that passes the binding is taken to the authentication step, and
from there on only a collaborator can make the handler fail: a 400 is then the
failure of `viewRepo.Create` or of the scheduled `vcs.Create`. With the caller
authenticated and allowed, `viewRepo.Create` is called with the View built from
the request. -/
theorem create_accepted (env : Env) (store : ViewStore) (body : Body) (req : CreateRequest)
    (hreq : ShouldBindJSON body = Except.ok req) :
    (Create env store body).trace.head? = some Event.authUserID ∧
    ((Create env store body).response.status = 400 →
      ∃ u, env.authUserID = some u ∧ env.userHasAccessToCodebase u req.CodebaseID = true ∧
        (env.viewRepoCreateErr (newView env u req) = true ∨
         env.execViewErr (createExecutor req (newView env u req)) req.CodebaseID
           (newView env u req).ID "createView" = true)) ∧
    (∀ u, env.authUserID = some u → env.userHasAccessToCodebase u req.CodebaseID = true →
      Event.viewRepoCreate (newView env u req) ∈ (Create env store body).trace ∧
      ∀ v, Event.viewRepoCreate v ∈ (Create env store body).trace → v = newView env u req) := by
  cases h2 : env.authUserID with
  | none =>
    rw [create_auth_err env store body req hreq h2]
    simp
  | some u =>
    cases h3 : env.userHasAccessToCodebase u req.CodebaseID with
    | false =>
      rw [create_access_err env store body req u hreq h2 h3]
      refine ⟨rfl, fun h => by simp at h, fun v hv hacc => ?_⟩
      injection hv with hv
      subst hv
      rw [h3] at hacc
      cases hacc
    | true =>
      have key : (Create env store body).trace.head? = some Event.authUserID ∧
          ((Create env store body).response.status = 400 →
            (env.viewRepoCreateErr (newView env u req) = true ∨
             env.execViewErr (createExecutor req (newView env u req)) req.CodebaseID
               (newView env u req).ID "createView" = true)) ∧
          (Event.viewRepoCreate (newView env u req) ∈ (Create env store body).trace ∧
            ∀ v, Event.viewRepoCreate v ∈ (Create env store body).trace →
              v = newView env u req) := by
        cases h4 : env.viewRepoCreateErr (newView env u req) with
        | true =>
          rw [create_repo_err env store body req u hreq h2 h3 h4]
          simp
        | false =>
          cases h5 : env.execViewErr (createExecutor req (newView env u req)) req.CodebaseID
            (newView env u req).ID "createView" with
          | true =>
            rw [create_exec_err env store body req u hreq h2 h3 h4 h5]
            simp
          | false =>
            cases h6 : env.workspaceGet req.WorkspaceID with
            | none =>
              rw [create_get_err env store body req u hreq h2 h3 h4 h5 h6]
              simp
            | some ws =>
              cases h7 : env.openWorkspaceOnView (newView env u req) ws with
              | none =>
                rw [create_open_err env store body req u ws hreq h2 h3 h4 h5 h6 h7]
                simp
              | some e1 =>
                rw [create_ok env store body req u ws e1 hreq h2 h3 h4 h5 h6 h7]
                simp
      refine ⟨key.1, fun h => ⟨u, rfl, h3, key.2.1 h⟩, fun v hv _ => ?_⟩
      injection hv with hv
      subst hv
      exact key.2.2

/-- Claim C10 (request validation). A body whose `codebase_id` or `workspace_id`
is missing or empty is answered with 400, the view store is left as it was and
no guarded call is made, in particular no record is created and no work is
scheduled. A body with both present and non-empty passes the binding whether
`name`, `mount_path` and `mount_hostname` are there or not. And the View the
handler builds, every View handed to `viewRepo.Create`, has the authenticated
user's ID as owner and the request's `codebase_id` and `workspace_id`.

The handler itself never rejects a body for its optional keys: it rejects a
body at the binding exactly when `codebase_id` or `workspace_id` is missing or
empty. For a body with both present and non-empty, whatever the three optional
keys are, the handler goes on to the authentication step; it answers 400 only
when `viewRepo.Create` or the scheduled `vcs.Create` fails, 401 when the caller
is not authenticated; with the caller authenticated and allowed it hands to
`viewRepo.Create` exactly one View, built from the request, whose owner is the
authenticated user, whose `CodebaseID` and `WorkspaceID` are the request's and
whose optional fields are the given values or empty; and it answers 200 with
the View when every collaborator succeeds. -/
theorem create_validates_request (env : Env) (store : ViewStore) :
    (∀ cb ws n mp mh, (cb = none ∨ cb = some "" ∨ ws = none ∨ ws = some "") →
      (Create env store (Body.object cb ws n mp mh)).response.status = 400 ∧
      (Create env store (Body.object cb ws n mp mh)).store = store ∧
      stepsOf (Create env store (Body.object cb ws n mp mh)).trace = [] ∧
      ∀ ev ∈ (Create env store (Body.object cb ws n mp mh)).trace, ev.isGuarded = false) ∧
    (∀ cb ws n mp mh, cb ≠ "" → ws ≠ "" →
      ShouldBindJSON (Body.object (some cb) (some ws) n mp mh) =
        Except.ok ⟨cb, ws, n.getD "", mp.getD "", mh.getD ""⟩) ∧
    (∀ body v, Event.viewRepoCreate v ∈ (Create env store body).trace →
      ∃ req, ShouldBindJSON body = Except.ok req ∧ env.authUserID = some v.UserID ∧
        v.CodebaseID = req.CodebaseID ∧ v.WorkspaceID = req.WorkspaceID) ∧
    (∀ cb ws n mp mh,
      (Create env store (Body.object cb ws n mp mh)).trace
          = [Event.logWarn "failed to parse input"] ↔
        (cb = none ∨ cb = some "" ∨ ws = none ∨ ws = some "")) ∧
    (∀ cb ws n mp mh, cb ≠ "" → ws ≠ "" →
      (Create env store (Body.object (some cb) (some ws) n mp mh)).trace.head?
        = some Event.authUserID ∧
      ((Create env store (Body.object (some cb) (some ws) n mp mh)).response.status = 400 →
        ∃ u, env.authUserID = some u ∧ env.userHasAccessToCodebase u cb = true ∧
          (env.viewRepoCreateErr
              (newView env u ⟨cb, ws, n.getD "", mp.getD "", mh.getD ""⟩) = true ∨
           env.execViewErr
              (createExecutor ⟨cb, ws, n.getD "", mp.getD "", mh.getD ""⟩
                (newView env u ⟨cb, ws, n.getD "", mp.getD "", mh.getD ""⟩))
              cb env.newUUID "createView" = true)) ∧
      (env.authUserID = none →
        (Create env store (Body.object (some cb) (some ws) n mp mh)).response
          = ⟨401, ResponseBody.empty⟩) ∧
      (∀ u, env.authUserID = some u → env.userHasAccessToCodebase u cb = true →
        Event.viewRepoCreate
            ⟨env.newUUID, u, cb, ws, some (n.getD ""), some (mp.getD ""), some (mh.getD ""),
              some env.now⟩
          ∈ (Create env store (Body.object (some cb) (some ws) n mp mh)).trace ∧
        ∀ v, Event.viewRepoCreate v
            ∈ (Create env store (Body.object (some cb) (some ws) n mp mh)).trace →
          v = ⟨env.newUUID, u, cb, ws, some (n.getD ""), some (mp.getD ""), some (mh.getD ""),
            some env.now⟩) ∧
      (∀ u wsr e1, env.authUserID = some u → env.userHasAccessToCodebase u cb = true →
        env.viewRepoCreateErr
          (newView env u ⟨cb, ws, n.getD "", mp.getD "", mh.getD ""⟩) = false →
        env.execViewErr
          (createExecutor ⟨cb, ws, n.getD "", mp.getD "", mh.getD ""⟩
            (newView env u ⟨cb, ws, n.getD "", mp.getD "", mh.getD ""⟩))
          cb env.newUUID "createView" = false →
        env.workspaceGet ws = some wsr →
        env.openWorkspaceOnView
          (newView env u ⟨cb, ws, n.getD "", mp.getD "", mh.getD ""⟩) wsr = some e1 →
        (Create env store (Body.object (some cb) (some ws) n mp mh)).response
          = ⟨200, ResponseBody.view e1⟩)) := by
  have hok : ∀ (cb ws : String) (n mp mh : Option String), cb ≠ "" → ws ≠ "" →
      ShouldBindJSON (Body.object (some cb) (some ws) n mp mh) =
        Except.ok ⟨cb, ws, n.getD "", mp.getD "", mh.getD ""⟩ := by
    intro cb ws n mp mh hcb hws
    simp [ShouldBindJSON, hcb, hws]
  have hrej : ∀ (cb ws n mp mh : Option String),
      (cb = none ∨ cb = some "" ∨ ws = none ∨ ws = some "") →
      Create env store (Body.object cb ws n mp mh) =
        ⟨⟨400, ResponseBody.error "failed to parse or validate input"⟩, store,
          [Event.logWarn "failed to parse input"]⟩ := by
    intro cb ws n mp mh h
    have hbind : ∃ m, ShouldBindJSON (Body.object cb ws n mp mh) = Except.error m := by
      rcases h with h | h | h | h
      · subst h
        exact ⟨"CodebaseID is required", by simp [ShouldBindJSON]⟩
      · subst h
        exact ⟨"CodebaseID is required", by simp [ShouldBindJSON]⟩
      · subst h
        by_cases hc : cb.getD "" = ""
        · exact ⟨"CodebaseID is required", by simp [ShouldBindJSON, hc]⟩
        · exact ⟨"WorkspaceID is required", by simp [ShouldBindJSON, hc]⟩
      · subst h
        by_cases hc : cb.getD "" = ""
        · exact ⟨"CodebaseID is required", by simp [ShouldBindJSON, hc]⟩
        · exact ⟨"WorkspaceID is required", by simp [ShouldBindJSON, hc]⟩
    obtain ⟨m, hm⟩ := hbind
    exact create_bind_err env store _ m hm
  refine ⟨?_, hok, ?_, ?_, ?_⟩
  · intro cb ws n mp mh h
    rw [hrej cb ws n mp mh h]
    simp [stepsOf, Event.step, Event.isGuarded]
  · intro body v
    apply create_cases env store body
      (fun out => Event.viewRepoCreate v ∈ out.trace →
        ∃ req, ShouldBindJSON body = Except.ok req ∧ env.authUserID = some v.UserID ∧
          v.CodebaseID = req.CodebaseID ∧ v.WorkspaceID = req.WorkspaceID)
    · intro m _ h; simp at h
    · intro req _ _ h; simp at h
    · intro req u _ _ _ h; simp at h
    · intro req u h1 h2 _ _ h
      simp at h
      subst h
      exact ⟨req, h1, h2, rfl, rfl⟩
    · intro req u h1 h2 _ _ _ h
      simp at h
      subst h
      exact ⟨req, h1, h2, rfl, rfl⟩
    · intro req u h1 h2 _ _ _ _ h
      simp at h
      subst h
      exact ⟨req, h1, h2, rfl, rfl⟩
    · intro req u ws h1 h2 _ _ _ _ _ h
      simp at h
      subst h
      exact ⟨req, h1, h2, rfl, rfl⟩
    · intro req u ws e1 h1 h2 _ _ _ _ _ h
      have h2v : v = newView env u req := by
        split at h <;> simpa using h
      subst h2v
      exact ⟨req, h1, h2, rfl, rfl⟩
  · intro cb ws n mp mh
    constructor
    · intro htr
      by_contra hno
      simp only [not_or] at hno
      obtain ⟨h1, h2, h3, h4⟩ := hno
      cases cb with
      | none => exact h1 rfl
      | some c =>
        cases ws with
        | none => exact h3 rfl
        | some w =>
          have hc : c ≠ "" := fun hh => h2 (by rw [hh])
          have hw : w ≠ "" := fun hh => h4 (by rw [hh])
          have hhead := (create_accepted env store _ _ (hok c w n mp mh hc hw)).1
          rw [htr] at hhead
          simp at hhead
    · intro h
      rw [hrej cb ws n mp mh h]
  · intro cb ws n mp mh hcb hws
    have hreq := hok cb ws n mp mh hcb hws
    have hacc := create_accepted env store _ _ hreq
    refine ⟨hacc.1, hacc.2.1, ?_, hacc.2.2, ?_⟩
    · intro h2
      rw [create_auth_err env store _ _ hreq h2]
    · intro u wsr e1 h2 h3 h4 h5 h6 h7
      rw [create_ok env store _ _ u wsr e1 hreq h2 h3 h4 h5 h6 h7]

/-- Witness of C10: a body without `workspace_id` is rejected; a body with the
two required keys only is accepted, by the binding and by the handler, which
answers 200 with the View of the authenticated user. -/
theorem create_validates_request_witness :
    (Create sampleEnv [] (Body.object (some "codebase") none (some "n") none none)).response.status
      = 400 ∧
    (Create sampleEnv [] (Body.object (some "codebase") none (some "n") none none)).store = [] ∧
    ShouldBindJSON (Body.object (some "codebase") (some "workspace") none none none) =
      Except.ok ⟨"codebase", "workspace", "", "", ""⟩ ∧
    (Create sampleEnv [] (Body.object (some "codebase") (some "workspace") none none none)).response
      = ⟨200, ResponseBody.view
          ⟨"view-1", "user", "codebase", "workspace", some "", some "", some "", some 0⟩⟩ :=
  ⟨((create_validates_request sampleEnv []).1 (some "codebase") none (some "n") none none
      (Or.inr (Or.inr (Or.inl rfl)))).1,
   ((create_validates_request sampleEnv []).1 (some "codebase") none (some "n") none none
      (Or.inr (Or.inr (Or.inl rfl)))).2.1,
   (create_validates_request sampleEnv []).2.1 "codebase" "workspace" none none none
      (by decide) (by decide),
   ((create_validates_request sampleEnv []).2.2.2.2 "codebase" "workspace" none none none
      (by decide) (by decide)).2.2.2.2 "user" ⟨"workspace", "codebase", "user"⟩
      ⟨"view-1", "user", "codebase", "workspace", some "", some "", some "", some 0⟩
      rfl rfl rfl rfl rfl rfl⟩

end Sturdy.Routes

/-! ## The in-memory change repository -/

namespace Sturdy.InMemory

theorem applyWrite_changes (r : inMemoryChangeRepo) (w : Write) (i : String) :
    (applyWrite r w).changes i = if i = w.change.ID then some w.change else r.changes i := by
  cases w <;> rfl

theorem applyWrites_changes (ws : List Write) (r : inMemoryChangeRepo) (i : String) :
    (applyWrites r ws).changes i =
      match lastWritten i ws with
      | some c => some c
      | none => r.changes i := by
  induction ws generalizing r with
  | nil => rfl
  | cons w rest ih =>
    rw [applyWrites, ih, lastWritten]
    cases h : lastWritten i rest with
    | some c => rfl
    | none =>
      simp only [applyWrite_changes]
      by_cases hi : w.change.ID = i
      · simp [hi]
      · have hi2 : ¬ i = w.change.ID := fun hh => hi hh.symm
        simp [hi, hi2]

theorem lastWritten_none (i : String) (ws : List Write) (h : ∀ w ∈ ws, w.change.ID ≠ i) :
    lastWritten i ws = none := by
  induction ws with
  | nil => rfl
  | cons w rest ih =>
    have h1 := ih (fun x hx => h x (List.mem_cons_of_mem _ hx))
    have h2 := h w (List.mem_cons_self _ _)
    simp [lastWritten, h1, h2]

/-- Claim C11 (keyed-store round trip and NotFound). For every repository state
and every change `ch`: `Insert(ch)` returns a nil error, after it `Get(ch.ID)`
returns `ch` with a nil error and `Get` of any other ID returns what it returned
before; and `Get` of an ID with no entry returns a nil change together with
`sql.ErrNoRows`. -/
theorem inmemory_insert_get (r : inMemoryChangeRepo) (ch : Change) :
    (Insert r ch).2 = none ∧
    Get (Insert r ch).1 ch.ID = (some ch, none) ∧
    (∀ id, id ≠ ch.ID → Get (Insert r ch).1 id = Get r id) ∧
    (∀ id, r.changes id = none → Get r id = (none, some Err.ErrNoRows)) := by
  refine ⟨rfl, by simp [Get, Insert], fun id hid => by simp [Get, Insert, hid],
    fun id hid => by simp [Get, hid]⟩

/-- Witness of C11: after inserting `changeWithCommit` into the repository that
holds `changeNoCommit`, the other ID reads as before, and an ID never inserted
is not found. -/
theorem inmemory_insert_get_witness :
    Get (Insert (Insert NewInMemoryChangeRepo changeNoCommit).1 changeWithCommit).1 "change-1"
      = Get (Insert NewInMemoryChangeRepo changeNoCommit).1 "change-1" ∧
    Get (Insert NewInMemoryChangeRepo changeNoCommit).1 "change-9"
      = (none, some Err.ErrNoRows) :=
  ⟨(inmemory_insert_get (Insert NewInMemoryChangeRepo changeNoCommit).1 changeWithCommit).2.2.1
      "change-1" (by decide),
   (inmemory_insert_get (Insert NewInMemoryChangeRepo changeNoCommit).1 changeWithCommit).2.2.2
      "change-9" rfl⟩

/-- Counterexample to C12 as stated: the repository holds `changeWithCommit`
under `change-2`; after `Update(changeRewritten)`, and just as well after
`Insert(changeRewritten)`, `Get("change-2")` returns `changeRewritten`, not the
change first inserted. -/
theorem inmemory_change_immutable_counterexample :
    Get (Insert NewInMemoryChangeRepo changeWithCommit).1 "change-2"
      = (some changeWithCommit, none) ∧
    Get (applyWrites (Insert NewInMemoryChangeRepo changeWithCommit).1
      [Write.update changeRewritten]) "change-2" = (some changeRewritten, none) ∧
    Get (applyWrites (Insert NewInMemoryChangeRepo changeWithCommit).1
      [Write.insert changeRewritten]) "change-2" = (some changeRewritten, none) ∧
    changeRewritten ≠ changeWithCommit := by
  decide

/-- Claim C12, amended (a stored change is replaced only under its own ID). For
every repository state and every later sequence of `Insert` and `Update` calls,
`Get(i)` returns the change of the last call of the sequence whose change has
the ID `i`, and what it returned before the sequence when there is no such call;
so a stored change stays as long as no call is made with its ID. -/
theorem inmemory_change_last_write (r : inMemoryChangeRepo) (ws : List Write) (i : String) :
    (Get (applyWrites r ws) i =
      match lastWritten i ws with
      | some c => (some c, none)
      | none => Get r i) ∧
    ((∀ w ∈ ws, w.change.ID ≠ i) → Get (applyWrites r ws) i = Get r i) := by
  have h1 : Get (applyWrites r ws) i =
      match lastWritten i ws with
      | some c => (some c, none)
      | none => Get r i := by
    simp only [Get, applyWrites_changes]
    cases lastWritten i ws <;> rfl
  refine ⟨h1, fun h => ?_⟩
  rw [h1, lastWritten_none i ws h]

/-- Witness of C12 amended: writes under `change-2` leave `change-1` as it was. -/
theorem inmemory_change_last_write_witness :
    Get (applyWrites (Insert NewInMemoryChangeRepo changeNoCommit).1
      [Write.insert changeWithCommit, Write.update changeRewritten]) "change-1"
      = Get (Insert NewInMemoryChangeRepo changeNoCommit).1 "change-1" :=
  (inmemory_change_last_write (Insert NewInMemoryChangeRepo changeNoCommit).1
    [Write.insert changeWithCommit, Write.update changeRewritten] "change-1").2 (by decide)

/-- The condition of `GetByCommitID` never holds: it panics or is false. -/
theorem commitMatches_never (c : Change) (commitID codebaseID : String) :
    commitMatches c commitID codebaseID ≠ Outcome.returned true := by
  unfold commitMatches
  split
  · split
    · rename_i h
      rw [h]
      simp
    · simp
  · simp

/-- On the code as written, `GetByCommitID` never returns a change: whatever the
repository holds and in whatever order it is visited, the call panics or
returns `sql.ErrNoRows`. -/
theorem GetByCommitID_never_finds (r : inMemoryChangeRepo) (order : List String)
    (commitID codebaseID : String) :
    GetByCommitID r order commitID codebaseID = Outcome.panicked ∨
    GetByCommitID r order commitID codebaseID = Outcome.returned (none, some Err.ErrNoRows) := by
  induction order with
  | nil => exact Or.inr rfl
  | cons id rest ih =>
    unfold GetByCommitID
    cases r.changes id with
    | none => exact ih
    | some c =>
      simp only
      have hn := commitMatches_never c commitID codebaseID
      cases hm : commitMatches c commitID codebaseID with
      | panicked => exact Or.inl rfl
      | returned b =>
        cases b with
        | true => exact absurd hm hn
        | false => exact ih

/-- Claim C13, the code at the failing inputs: with a stored change of the
codebase whose `CommitID` is nil, `GetByCommitID` dereferences the nil pointer
and panics; with a stored change of the codebase whose `CommitID` is `abc`,
`GetByCommitID("abc", "codebase")` returns `sql.ErrNoRows` although such a
change is stored. -/
theorem GetByCommitID_failing_inputs :
    GetByCommitID (Insert NewInMemoryChangeRepo changeNoCommit).1 ["change-1"] "abc" "codebase"
      = Outcome.panicked ∧
    (Insert NewInMemoryChangeRepo changeWithCommit).1.changes "change-2" = some changeWithCommit ∧
    changeWithCommit.CodebaseID = "codebase" ∧ changeWithCommit.CommitID = some "abc" ∧
    GetByCommitID (Insert NewInMemoryChangeRepo changeWithCommit).1 ["change-2"] "abc" "codebase"
      = Outcome.returned (none, some Err.ErrNoRows) := by
  decide

end Sturdy.InMemory

/-! ## The activity service -/

namespace Sturdy.ActivityService

theorem lookup_some_key (store : ReadsStore) (u w : String) (p : ActivityReads)
    (hp : lookup store u w = some p) : p.UserID = u ∧ p.WorkspaceID = w := by
  have h := List.find?_some hp
  simpa using h

/-- After an update of the row found for a user and a workspace, the lookup
finds the updated row. -/
theorem lookup_update (store : ReadsStore) (u w : String) (p : ActivityReads) (t : Int)
    (hp : lookup store u w = some p) :
    lookup (store.map (fun x => if x.ID = p.ID then { p with LastReadCreatedAt := t } else x)) u w
      = some { p with LastReadCreatedAt := t } := by
  obtain ⟨hu, hw⟩ := lookup_some_key store u w p hp
  induction store with
  | nil => simp [lookup] at hp
  | cons x xs ih =>
    simp only [lookup, List.find?_cons] at hp
    simp only [lookup, List.map_cons, List.find?_cons]
    by_cases hid : x.ID = p.ID
    · simp [hid, hu, hw]
    · simp only [hid, if_false]
      cases hq : (decide (x.UserID = u) && decide (x.WorkspaceID = w)) with
      | true =>
        rw [hq] at hp
        simp only at hp
        injection hp with hp
        exact absurd (by rw [hp]) hid
      | false =>
        rw [hq] at hp
        simp only at hp ⊢
        exact ih hp

theorem lookup_append (store : ReadsStore) (u w : String) (r : ActivityReads)
    (hn : lookup store u w = none) (hu : r.UserID = u) (hw : r.WorkspaceID = w) :
    lookup (store ++ [r]) u w = some r := by
  simp only [lookup] at hn ⊢
  rw [List.find?_append, hn]
  simp [hu, hw]


theorem markAsRead_get_fails (f : Faults) (newID : String) (store : ReadsStore) (userID : String)
    (act : Activity) (hg : f.get = true) :
    MarkAsRead f newID store userID act =
      ⟨some (Err.failedToGetLastRead Err.storeFailure), store,
        [Call.getByUserAndWorkspace userID act.WorkspaceID]⟩ := by
  simp [MarkAsRead, GetByUserAndWorkspace, hg]

theorem markAsRead_found (f : Faults) (newID : String) (store : ReadsStore) (userID : String)
    (act : Activity) (p : ActivityReads) (hg : f.get = false)
    (hp : lookup store userID act.WorkspaceID = some p) :
    MarkAsRead f newID store userID act =
      markAsReadUpdate f store userID act p [Call.getByUserAndWorkspace userID act.WorkspaceID] := by
  simp [MarkAsRead, GetByUserAndWorkspace, hg, hp]

theorem markAsRead_create_fails (f : Faults) (newID : String) (store : ReadsStore)
    (userID : String) (act : Activity) (hg : f.get = false)
    (hp : lookup store userID act.WorkspaceID = none) (hc : f.create = true) :
    MarkAsRead f newID store userID act =
      ⟨some Err.storeFailure, store,
        [Call.getByUserAndWorkspace userID act.WorkspaceID,
         Call.create ⟨newID, userID, act.WorkspaceID, act.CreatedAt⟩]⟩ := by
  simp [MarkAsRead, GetByUserAndWorkspace, hg, hp, repoCreate, hc]

theorem markAsRead_created (f : Faults) (newID : String) (store : ReadsStore)
    (userID : String) (act : Activity) (hg : f.get = false)
    (hp : lookup store userID act.WorkspaceID = none) (hc : f.create = false) :
    MarkAsRead f newID store userID act =
      ⟨none, store ++ [⟨newID, userID, act.WorkspaceID, act.CreatedAt⟩],
        [Call.getByUserAndWorkspace userID act.WorkspaceID,
         Call.create ⟨newID, userID, act.WorkspaceID, act.CreatedAt⟩,
         Call.eventsUser userID EventType.WorkspaceUpdatedActivity act.ID]⟩ := by
  simp [MarkAsRead, GetByUserAndWorkspace, hg, hp, repoCreate, hc, markAsReadUpdate]

theorem markAsReadUpdate_not_later (f : Faults) (store : ReadsStore) (userID : String)
    (act : Activity) (p : ActivityReads) (calls : List Call)
    (hlt : ¬ p.LastReadCreatedAt < act.CreatedAt) :
    markAsReadUpdate f store userID act p calls =
      ⟨none, store,
        calls ++ [Call.eventsUser userID EventType.WorkspaceUpdatedActivity act.ID]⟩ := by
  simp [markAsReadUpdate, hlt]

theorem markAsReadUpdate_fails (f : Faults) (store : ReadsStore) (userID : String)
    (act : Activity) (p : ActivityReads) (calls : List Call)
    (hlt : p.LastReadCreatedAt < act.CreatedAt) (hu : f.update = true) :
    markAsReadUpdate f store userID act p calls =
      ⟨some Err.storeFailure, store,
        calls ++ [Call.update { p with LastReadCreatedAt := act.CreatedAt }]⟩ := by
  simp [markAsReadUpdate, hlt, repoUpdate, hu]

theorem markAsReadUpdate_updates (f : Faults) (store : ReadsStore) (userID : String)
    (act : Activity) (p : ActivityReads) (calls : List Call)
    (hlt : p.LastReadCreatedAt < act.CreatedAt) (hu : f.update = false) :
    markAsReadUpdate f store userID act p calls =
      ⟨none,
        store.map (fun x => if x.ID = p.ID then { p with LastReadCreatedAt := act.CreatedAt } else x),
        calls ++ [Call.update { p with LastReadCreatedAt := act.CreatedAt },
          Call.eventsUser userID EventType.WorkspaceUpdatedActivity act.ID]⟩ := by
  simp [markAsReadUpdate, hlt, repoUpdate, hu]

/-- Claim C14 (`MarkAsRead` is monotone). When `MarkAsRead` returns nil, the
`LastReadCreatedAt` stored afterwards for the user and the activity's workspace
is the later of the value stored before and `activity.CreatedAt`, it is
`activity.CreatedAt` when no row existed, so it is never earlier than the value
before; when no row existed one `Create` and no `Update` is issued; and the
`WorkspaceUpdatedActivity` event for the user and `activity.ID` is the one event
sent. An `Update` is issued only when `activity.CreatedAt` is strictly later
than the stored value. When the call returns an error no event is sent and the
store is as before. -/
theorem markAsRead_monotone (f : Faults) (newID : String) (store : ReadsStore) (userID : String)
    (act : Activity) :
    ((MarkAsRead f newID store userID act).err = none →
      (∃ r, lookup (MarkAsRead f newID store userID act).store userID act.WorkspaceID = some r ∧
        r.LastReadCreatedAt =
          (match lookup store userID act.WorkspaceID with
           | some p => max p.LastReadCreatedAt act.CreatedAt
           | none => act.CreatedAt) ∧
        (∀ p, lookup store userID act.WorkspaceID = some p →
          p.LastReadCreatedAt ≤ r.LastReadCreatedAt)) ∧
      (lookup store userID act.WorkspaceID = none →
        List.countP Call.isCreate (MarkAsRead f newID store userID act).calls = 1 ∧
        List.countP Call.isUpdate (MarkAsRead f newID store userID act).calls = 0) ∧
      List.filter Call.isEvent (MarkAsRead f newID store userID act).calls =
        [Call.eventsUser userID EventType.WorkspaceUpdatedActivity act.ID]) ∧
    (∀ r, Call.update r ∈ (MarkAsRead f newID store userID act).calls →
      ∃ p, lookup store userID act.WorkspaceID = some p ∧
        p.LastReadCreatedAt < act.CreatedAt ∧
        r = { p with LastReadCreatedAt := act.CreatedAt }) ∧
    ((MarkAsRead f newID store userID act).err ≠ none →
      List.filter Call.isEvent (MarkAsRead f newID store userID act).calls = [] ∧
      (MarkAsRead f newID store userID act).store = store) := by
  cases hg : f.get with
  | true =>
    rw [markAsRead_get_fails f newID store userID act hg]
    simp [Call.isEvent]
  | false =>
    cases hp : lookup store userID act.WorkspaceID with
    | none =>
      cases hc : f.create with
      | true =>
        rw [markAsRead_create_fails f newID store userID act hg hp hc]
        simp [Call.isEvent]
      | false =>
        rw [markAsRead_created f newID store userID act hg hp hc]
        refine ⟨fun _ => ⟨⟨_, lookup_append store userID act.WorkspaceID _ hp rfl rfl, rfl,
          fun p hp2 => by cases hp2⟩, fun _ => by simp [List.countP_cons, Call.isCreate,
            Call.isUpdate], by simp [List.filter_cons, Call.isEvent]⟩, by simp, by simp⟩
    | some p =>
      rw [markAsRead_found f newID store userID act p hg hp]
      by_cases hlt : p.LastReadCreatedAt < act.CreatedAt
      · cases hu : f.update with
        | true =>
          rw [markAsReadUpdate_fails f store userID act p _ hlt hu]
          refine ⟨?_, ?_, ?_⟩
          · intro h
            simp at h
          · intro r hr
            simp at hr
            exact ⟨p, rfl, hlt, hr⟩
          · intro _
            simp [List.filter_cons, Call.isEvent]
        | false =>
          rw [markAsReadUpdate_updates f store userID act p _ hlt hu]
          refine ⟨?_, ?_, ?_⟩
          · intro _
            refine ⟨?_, ?_, ?_⟩
            · refine ⟨_, lookup_update store userID act.WorkspaceID p act.CreatedAt hp, ?_, ?_⟩
              · simp only
                rw [max_eq_right (le_of_lt hlt)]
              · intro q hq
                injection hq with hq
                subst hq
                exact le_of_lt hlt
            · intro h
              cases h
            · simp [List.filter_cons, Call.isEvent]
          · intro r hr
            simp at hr
            exact ⟨p, rfl, hlt, hr⟩
          · intro h
            simp at h
      · rw [markAsReadUpdate_not_later f store userID act p _ hlt]
        refine ⟨?_, ?_, ?_⟩
        · intro _
          refine ⟨?_, ?_, ?_⟩
          · refine ⟨p, hp, ?_, ?_⟩
            · simp only
              rw [max_eq_left (not_lt.mp hlt)]
            · intro q hq
              injection hq with hq
              subst hq
              exact le_refl _
          · intro h
            cases h
          · simp [List.filter_cons, Call.isEvent]
        · intro r hr
          simp at hr
        · intro h
          simp at h

/-- Witness of C14: the row of `u` and `w` stands at 10; marking an activity of
instant 12 as read moves it to 12, marking one of instant 5 leaves it at 10. -/
theorem markAsRead_monotone_witness :
    (∃ r, lookup (MarkAsRead noFaults "n" sampleStore "u" ⟨"a1", "w", 12⟩).store "u" "w" = some r ∧
      r.LastReadCreatedAt = 12) ∧
    (∃ r, lookup (MarkAsRead noFaults "n" sampleStore "u" ⟨"a2", "w", 5⟩).store "u" "w" = some r ∧
      r.LastReadCreatedAt = 10) :=
  ⟨(((markAsRead_monotone noFaults "n" sampleStore "u" ⟨"a1", "w", 12⟩).1 rfl).1).imp
      (fun _ h => ⟨h.1, h.2.1⟩),
   (((markAsRead_monotone noFaults "n" sampleStore "u" ⟨"a2", "w", 5⟩).1 rfl).1).imp
      (fun _ h => ⟨h.1, h.2.1⟩)⟩

end Sturdy.ActivityService

/-! ## The organization resolver -/

namespace Sturdy.OrganizationGraphql

theorem LastIndex_absent (s : List Char) (sep : Char) (h : sep ∉ s) : LastIndex s sep = -1 := by
  induction s with
  | nil => rfl
  | cons c rest ih =>
    have h1 : sep ∉ rest := fun hh => h (List.mem_cons_of_mem _ hh)
    have h2 : ¬ c = sep := fun hh => h (by rw [hh]; exact List.mem_cons_self _ _)
    simp [LastIndex, ih h1, h2]

/-- The last separator of `a ++ sep :: b`, when `b` has none, is the one shown. -/
theorem LastIndex_append (a b : List Char) (sep : Char) (h : sep ∉ b) :
    LastIndex (a ++ sep :: b) sep = a.length := by
  induction a with
  | nil => simp [LastIndex, LastIndex_absent b sep h]
  | cons c rest ih =>
    have hn : (0 : Int) ≤ (rest.length : Int) := Int.natCast_nonneg _
    have e : LastIndex (c :: (rest ++ sep :: b)) sep =
        (if 0 ≤ LastIndex (rest ++ sep :: b) sep then LastIndex (rest ++ sep :: b) sep + 1
         else if c = sep then 0 else -1) := rfl
    rw [List.cons_append, e, ih, if_pos hn]
    simp

/-- The lookup made for a short ID that ends in `sep`-free `b` after a `-`. -/
theorem organization_shortID_suffix (env : Env) (a b : List Char) (h : '-' ∉ b) :
    (OrganizationQuery env ⟨none, some (a ++ '-' :: b)⟩).calls.head? = some (Call.GetByShortID b) ∧
    List.filter Call.isGetByShortID (OrganizationQuery env ⟨none, some (a ++ '-' :: b)⟩).calls
      = [Call.GetByShortID b] := by
  have hidx : LastIndex (a ++ '-' :: b) '-' = a.length := LastIndex_append a b '-' h
  have hdrop : List.drop ((a.length : Int) + 1).toNat (a ++ '-' :: b) = b := by
    have : ((a.length : Int) + 1).toNat = a.length + 1 := by omega
    rw [this]
    simp
  have hnn : (0 : Int) ≤ (a.length : Int) := Int.natCast_nonneg _
  simp only [OrganizationQuery, hidx, hnn, if_true, hdrop]
  cases env.GetByShortID b with
  | none => simp [Call.isGetByShortID]
  | some org =>
    simp only [organizationCheck]
    split <;> simp [Call.isGetByShortID]

/-- Claim C15 (short-ID round trip). For every organization whose `ShortID` has
no `-` and every name, whatever `slug.Make` gives: passing the value of
`organizationResolver.ShortID()` as `args.ShortID` (with no `args.ID`) makes
`Organization` call `GetByShortID` first and once, with exactly the
organization's `ShortID`. In general the lookup is made with what follows the
last `-`; an `args.ShortID` without `-` is looked up unchanged; and when
`args.ID` is given, `GetByID` is called with it and `GetByShortID` is not
called, whatever `args.ShortID` is. -/
theorem organization_shortID_round_trip (env : Env) (slugMake : List Char → List Char)
    (org : Organization) (h : '-' ∉ org.ShortID) :
    ((OrganizationQuery env ⟨none, some (ShortID slugMake org)⟩).calls.head?
        = some (Call.GetByShortID org.ShortID) ∧
      List.filter Call.isGetByShortID
        (OrganizationQuery env ⟨none, some (ShortID slugMake org)⟩).calls
        = [Call.GetByShortID org.ShortID]) ∧
    (∀ a b, '-' ∉ b →
      List.filter Call.isGetByShortID (OrganizationQuery env ⟨none, some (a ++ '-' :: b)⟩).calls
        = [Call.GetByShortID b]) ∧
    (∀ s, '-' ∉ s →
      List.filter Call.isGetByShortID (OrganizationQuery env ⟨none, some s⟩).calls
        = [Call.GetByShortID s]) ∧
    (∀ id sid,
      (OrganizationQuery env ⟨some id, sid⟩).calls.head? = some (Call.GetByID id) ∧
      List.filter Call.isGetByShortID (OrganizationQuery env ⟨some id, sid⟩).calls = []) := by
  refine ⟨?_, fun a b hb => (organization_shortID_suffix env a b hb).2, ?_, ?_⟩
  · have := organization_shortID_suffix env (slugMake org.Name) org.ShortID h
    simpa [ShortID] using this
  · intro s hs
    simp only [OrganizationQuery, LastIndex_absent s '-' hs]
    have : ¬ ((0 : Int) ≤ -1) := by omega
    simp only [this, if_false]
    cases env.GetByShortID s with
    | none => simp [Call.isGetByShortID]
    | some o =>
      simp only [organizationCheck]
      split <;> simp [Call.isGetByShortID]
  · intro id sid
    simp only [OrganizationQuery]
    cases env.GetByID id with
    | none => simp [Call.isGetByShortID]
    | some o =>
      simp only [organizationCheck]
      split <;> simp [Call.isGetByShortID]

/-- Witness of C15: the short ID `acme-corp-x7k2` of `acme` is looked up as
`x7k2`. -/
theorem organization_shortID_round_trip_witness :
    (OrganizationQuery sampleEnv ⟨none, some "acme-corp-x7k2".toList⟩).calls.head?
      = some (Call.GetByShortID "x7k2".toList) :=
  (organization_shortID_round_trip sampleEnv sampleSlug acme (by decide)).1.1


theorem explicitLoop_eq (orgs : List Organization) (loaded : List String)
    (res : List Organization) :
    explicitLoop orgs loaded res =
      ((orgs.map (fun org => org.ID)).reverse ++ loaded, res ++ orgs) := by
  induction orgs generalizing loaded res with
  | nil => simp [explicitLoop]
  | cons org rest ih => simp [explicitLoop, ih]

theorem mem_firstOccurrences (l : List String) (x : String) :
    x ∈ firstOccurrences l ↔ x ∈ l := by
  induction l with
  | nil => simp [firstOccurrences]
  | cons y rest ih =>
    simp only [firstOccurrences, List.mem_cons, List.mem_filter, ih, decide_eq_true_eq]
    constructor
    · rintro (h | ⟨h, -⟩)
      · exact Or.inl h
      · exact Or.inr h
    · intro h
      by_cases hxy : x = y
      · exact Or.inl hxy
      · rcases h with h | h
        · exact Or.inl h
        · exact Or.inr ⟨h, hxy⟩

theorem nodup_firstOccurrences (l : List String) : (firstOccurrences l).Nodup := by
  induction l with
  | nil => simp [firstOccurrences]
  | cons y rest ih =>
    simp only [firstOccurrences, List.nodup_cons, List.mem_filter, decide_eq_true_eq]
    exact ⟨fun h => h.2 rfl, ih.filter _⟩

theorem firstOccurrences_filter (l : List String) (p : String → Bool) :
    firstOccurrences (l.filter p) = (firstOccurrences l).filter p := by
  induction l with
  | nil => simp [firstOccurrences]
  | cons x rest ih =>
    cases hp : p x with
    | true =>
      simp only [List.filter_cons, hp, if_true, firstOccurrences, ih, List.filter_filter]
      congr 1
      apply List.filter_congr
      intro y _
      exact Bool.and_comm _ _
    | false =>
      simp only [List.filter_cons, hp, firstOccurrences, ih, List.filter_filter]
      simp only [Bool.false_eq_true, if_false]
      rw [ih]
      apply List.filter_congr
      intro y _
      by_cases hy : y = x
      · subst hy
        simp [hp]
      · simp [hy]

/-- The organizations the second loop appends: the IDs not yet loaded, each
once in order of first occurrence, looked up with `GetByID`. -/
theorem implicitLoop_ok (env : Env) (ids : List String) :
    ∀ (loaded : List String) (res : List Organization) (calls : List Call),
      (∀ id ∈ ids, id ∉ loaded → ∃ org, env.GetByID id = some org) →
      (implicitLoop env ids loaded res calls).value =
        Except.ok (res ++ (firstOccurrences
          (ids.filter (fun id => decide (id ∉ loaded)))).filterMap env.GetByID) := by
  induction ids with
  | nil => intro loaded res calls _; simp [implicitLoop, firstOccurrences]
  | cons id rest ih =>
    intro loaded res calls hget
    have hrest : ∀ x ∈ rest, x ∉ loaded → ∃ org, env.GetByID x = some org :=
      fun x hx => hget x (List.mem_cons_of_mem _ hx)
    by_cases hl : id ∈ loaded
    · simp only [implicitLoop, hl, if_true]
      rw [ih loaded res calls hrest]
      simp [List.filter_cons, hl]
    · obtain ⟨org, horg⟩ := hget id (List.mem_cons_self _ _) hl
      simp only [implicitLoop, hl, if_false, horg]
      rw [ih (id :: loaded) (res ++ [org]) _ (fun x hx hxl => hrest x hx
        (fun hh => hxl (List.mem_cons_of_mem _ hh)))]
      have hf : rest.filter (fun x => decide (x ∉ id :: loaded)) =
          (rest.filter (fun x => decide (x ∉ loaded))).filter (fun y => decide (y ≠ id)) := by
        rw [List.filter_filter]
        apply List.filter_congr
        intro y _
        simp [List.mem_cons, not_or]
      rw [hf, firstOccurrences_filter]
      simp [List.filter_cons, hl, firstOccurrences, horg]

theorem filterMap_getByID_ids (env : Env) (l : List String)
    (h : ∀ id ∈ l, ∃ org, env.GetByID id = some org ∧ org.ID = id) :
    (l.filterMap env.GetByID).map (fun org => org.ID) = l := by
  induction l with
  | nil => rfl
  | cons x rest ih =>
    obtain ⟨org, h1, h2⟩ := h x (List.mem_cons_self _ _)
    rw [List.filterMap_cons_some h1, List.map_cons, h2,
      ih (fun y hy => h y (List.mem_cons_of_mem _ hy))]


/-- The value `Organizations` returns when the user is authenticated and the
lookups succeed. -/
theorem organizations_value (env : Env) (userID : String) (explicit : List Organization)
    (implicit : List String)
    (hauth : env.authUserID = AuthResult.user userID)
    (hexp : env.ListByUserID userID = some explicit)
    (himp : env.ListOrgsByUser userID = some implicit)
    (hget : ∀ id ∈ implicit, id ∉ explicit.map (fun org => org.ID) →
      ∃ org, env.GetByID id = some org) :
    (Organizations env).value =
      Except.ok (explicit ++ (firstOccurrences (implicit.filter
        (fun id => decide (id ∉ explicit.map (fun org => org.ID))))).filterMap env.GetByID) := by
  simp only [Organizations, hauth, hexp, himp, explicitLoop_eq]
  rw [implicitLoop_ok env implicit _ _ _ (fun id hid hl => hget id hid (by simpa using hl))]
  simp

/-- Claim C16 (`Organizations` lists each organization once). For an
authenticated user whose direct-membership list has no repeated organization
ID and for whom every lookup succeeds (`GetByID` giving the organization of
the ID asked for): the result is the directly joined organizations in the order
returned, followed by the organizations of the IDs reachable only through
codebase membership, each once in order of first occurrence; no organization ID
appears twice in it, and its length is the number of distinct organization IDs
of the two lists. For an unauthenticated caller the result is the empty list
with no error, and no service is called. -/
theorem organizations_each_once (env : Env) :
    (∀ (userID : String) (explicit : List Organization) (implicit : List String),
      env.authUserID = AuthResult.user userID →
      env.ListByUserID userID = some explicit →
      env.ListOrgsByUser userID = some implicit →
      (explicit.map (fun org => org.ID)).Nodup →
      (∀ id ∈ implicit, id ∉ explicit.map (fun org => org.ID) →
        ∃ org, env.GetByID id = some org ∧ org.ID = id) →
      ∃ res, (Organizations env).value = Except.ok res ∧
        res = explicit ++ (firstOccurrences (implicit.filter
          (fun id => decide (id ∉ explicit.map (fun org => org.ID))))).filterMap env.GetByID ∧
        res.map (fun org => org.ID) = explicit.map (fun org => org.ID) ++
          firstOccurrences (implicit.filter
            (fun id => decide (id ∉ explicit.map (fun org => org.ID)))) ∧
        (res.map (fun org => org.ID)).Nodup ∧
        res.length = (explicit.map (fun org => org.ID) ++ implicit).dedup.length) ∧
    (env.authUserID = AuthResult.unauthenticated →
      (Organizations env).value = Except.ok [] ∧ (Organizations env).calls = []) := by
  constructor
  · intro userID explicit implicit hauth hexp himp hnodup hget
    have hval := organizations_value env userID explicit implicit hauth hexp himp
      (fun id hid hl => (hget id hid hl).imp (fun _ h => h.1))
    have hids : ((firstOccurrences (implicit.filter
        (fun id => decide (id ∉ explicit.map (fun org => org.ID))))).filterMap env.GetByID).map
          (fun org => org.ID) =
        firstOccurrences (implicit.filter
          (fun id => decide (id ∉ explicit.map (fun org => org.ID)))) := by
      apply filterMap_getByID_ids
      intro id hid
      rw [mem_firstOccurrences, List.mem_filter] at hid
      exact hget id hid.1 (by simpa using hid.2)
    have hmap : (explicit ++ (firstOccurrences (implicit.filter
        (fun id => decide (id ∉ explicit.map (fun org => org.ID))))).filterMap env.GetByID).map
          (fun org => org.ID) =
        explicit.map (fun org => org.ID) ++ firstOccurrences (implicit.filter
          (fun id => decide (id ∉ explicit.map (fun org => org.ID)))) := by
      rw [List.map_append, hids]
    have hnd : (explicit.map (fun org => org.ID) ++ firstOccurrences (implicit.filter
        (fun id => decide (id ∉ explicit.map (fun org => org.ID))))).Nodup := by
      rw [List.nodup_append]
      refine ⟨hnodup, nodup_firstOccurrences _, ?_⟩
      intro x hx hx2
      rw [mem_firstOccurrences, List.mem_filter] at hx2
      have := hx2.2
      simp only [decide_eq_true_eq] at this
      exact this hx
    refine ⟨_, hval, rfl, hmap, ?_, ?_⟩
    · rw [hmap]
      exact hnd
    · have hlen : (explicit ++ (firstOccurrences (implicit.filter
          (fun id => decide (id ∉ explicit.map (fun org => org.ID))))).filterMap
            env.GetByID).length =
          (explicit.map (fun org => org.ID) ++ firstOccurrences (implicit.filter
            (fun id => decide (id ∉ explicit.map (fun org => org.ID))))).length := by
        rw [← hmap, List.length_map]
      rw [hlen]
      apply List.Perm.length_eq
      rw [List.perm_ext_iff_of_nodup hnd (List.nodup_dedup _)]
      intro x
      simp only [List.mem_append, mem_firstOccurrences, List.mem_filter, List.mem_dedup,
        decide_eq_true_eq]
      constructor
      · rintro (h | ⟨h, -⟩)
        · exact Or.inl h
        · exact Or.inr h
      · intro h
        by_cases hx : x ∈ explicit.map (fun org => org.ID)
        · exact Or.inl hx
        · rcases h with h | h
          · exact absurd h hx
          · exact Or.inr ⟨h, hx⟩
  · intro hauth
    simp [Organizations, hauth]

/-- Witness of C16: the user is a direct member of `acme` and reaches `globex`,
`acme`, `globex` through codebases; the result is `acme`, `globex`. -/
theorem organizations_each_once_witness :
    (Organizations sampleEnv).value = Except.ok [acme, globex] :=
  ((organizations_each_once sampleEnv).1 "user" [acme] ["org-2", "org-1", "org-2"] rfl rfl rfl
    (by decide) (by decide)).elim (fun _ h => h.1.trans (congrArg Except.ok h.2.1))

end Sturdy.OrganizationGraphql
